import Mathlib

/-!
Shallow embedding of the WebAudio mixer subsystem of OpenRCT2
(src/openrct2-ui/audio/WebAudioMixer.{h,cpp}).

Modelling conventions:
* C++ `float`/`double` arithmetic is idealised as exact arithmetic over `ℚ`
  (and over `ℝ` for the transcendental pan-law computation).
* Calls into the external WebAudio backend (`WebAudioPlayChannel`,
  `WebAudioUpdateChannel`, `WebAudioStopChannel`) are reified as a list of
  `Command` values emitted by each operation.
* A C++ `double` division is modelled as `Option ℚ`: `none` stands for the
  IEEE non-finite result (NaN/inf) produced by a zero divisor.
* The outcome of the external SDL sample-format conversion
  (`SDL_BuildAudioCVT` / `SDL_ConvertAudio`, an external collaborator) is an
  oracle field `cvtResult` on the source.
-/

namespace WebAudio

/-- Modelled from the spec: the maximum of the documented channel volume range
`0..MAX` (`kMixerVolumeMax`, whose defining header is not part of the sources
here; the upstream constant is 128). -/
def kMixerVolumeMax : ℤ := 128

/-- SDL sample-format code for unsigned 8-bit audio (external SDL constant). -/
def AUDIO_U8 : ℤ := 8

/-- SDL sample-format code for native-endian signed 16-bit audio
(external SDL constant). -/
def AUDIO_S16SYS : ℤ := 32784

/-- Modelled from the spec: bytes per sample of a format code (the SDL bit-size
of the format divided by 8); 1 for 8-bit unsigned, 2 for 16-bit signed. -/
def bytesPerSample (fmt : ℤ) : ℤ := (fmt % 256) / 8

/-- Sample format captured at play time (`AudioFormat`). -/
structure AudioFormat where
  freq : ℤ
  format : ℤ
  channels : ℤ
deriving DecidableEq, Repr

/-- Modelled from the spec: `bytesPerSecond = sampleRate × channelCount ×
bytesPerSample` (`AudioFormat::GetBytesPerSecond`, whose defining header is not
part of the sources here). -/
def AudioFormat.GetBytesPerSecond (f : AudioFormat) : ℤ :=
  f.freq * f.channels * bytesPerSample f.format

/-- An SDL-backed audio source (`SDLAudioSource`, external collaborator):
raw PCM byte payload, its format, the oracle outcome of an SDL conversion of
that payload to signed 16-bit, and the pool's released flag. -/
structure SDLAudioSource where
  sid : ℕ
  format : AudioFormat
  data : List ℤ
  cvtResult : Option (List ℤ)
  released : Bool
deriving DecidableEq, Repr

/-- The `IAudioSource*` argument of `WebAudioMixer::Play`: a null pointer, a
pointer to a source of a concrete type other than `SDLAudioSource` (the
`dynamic_cast` fails), or an `SDLAudioSource`. -/
inductive SourcePtr where
  | null : SourcePtr
  | incompatible : SourcePtr
  | sdl : SDLAudioSource → SourcePtr
deriving DecidableEq, Repr

/-- Reinterpret two consecutive bytes as a little-endian signed 16-bit value
(`ConvertToFloat` reads the buffer through an `int16_t` pointer). -/
def toS16Sample (lo hi : ℤ) : ℤ :=
  let v := lo % 256 + 256 * (hi % 256)
  if v < 32768 then v else v - 65536

/-- Group a byte list into little-endian signed 16-bit samples, dropping a
trailing odd byte (`data.size() / sizeof(int16_t)`). -/
def s16Samples : List ℤ → List ℤ
  | lo :: hi :: rest => toS16Sample lo hi :: s16Samples rest
  | _ => []

/-- Normalised floating-point samples produced by `ConvertToFloat`: 8-bit
unsigned bytes map to `(byte - 128) / 128`, anything else is read as signed
16-bit and mapped to `sample / 32768`. -/
def ConvertToFloat (fmt : ℤ) (data : List ℤ) : List ℚ :=
  if fmt = AUDIO_U8 then
    data.map (fun b => ((b : ℚ) - 128) / 128)
  else
    (s16Samples data).map (fun v => (v : ℚ) / 32768)

/-- One command sent to the external WebAudio backend. -/
inductive Command where
  | play (channelId channels frames sampleRate loop : ℤ)
      (rate volume pan : ℚ) (offsetSeconds : Option ℚ) : Command
  | update (channelId : ℤ) (rate volume pan : ℚ)
      (offsetSeconds : Option ℚ) (restart : Bool) : Command
  | stop (channelId : ℤ) : Command
deriving DecidableEq, Repr

/-- Mixer group of a channel (`MixerGroup`). -/
inductive MixerGroup where
  | Sound : MixerGroup
  | RideMusic : MixerGroup
  | TitleMusic : MixerGroup
deriving DecidableEq, Repr

/-- State of one `WebAudioChannel`. The derived stereo gains `_volume_l` /
`_volume_r` are computed by `SetPan` but never consumed by the backend command
flow; they are modelled separately by `leftGain` / `rightGain` below. -/
structure WebAudioChannel where
  channelId : ℤ
  source : Option ℕ
  format : AudioFormat
  offsetBytes : ℕ
  group : MixerGroup
  rate : ℚ
  loop : ℤ
  volume : ℤ
  pan : ℚ
  stopping : Bool
  done : Bool
  deleteOnDone : Bool
deriving DecidableEq, Repr

/-- Read-only external configuration consumed by the mixer:
`Config::Get().sound` and the `gLegacyScene == LegacyScene::titleSequence`
test. -/
structure MixerConfig where
  soundVolume : ℤ
  rideMusicVolume : ℤ
  masterVolume : ℤ
  masterSoundEnabled : Bool
  titleSequence : Bool
deriving DecidableEq, Repr

/-- State of the `WebAudioMixer`: the id counter, the master volume scalar,
the cached configuration volumes and their perceptual adjustment curves, the
live-channel list, the registry key set (`_channelMap`), and the source pool.
The registry's weak references are resolved against the live list, which is
what keeps them alive in the C++ code. -/
structure WebAudioMixer where
  nextChannelId : ℤ
  volume : ℚ
  settingSoundVolume : ℤ
  settingMusicVolume : ℤ
  adjustSoundVolume : ℚ
  adjustMusicVolume : ℚ
  channels : List WebAudioChannel
  channelMap : List ℤ
  sources : List SDLAudioSource
deriving DecidableEq, Repr

/-- The freshly constructed mixer: counter starts at 1, master scalar 1,
cached setting volumes -1, adjustment curves 1, all collections empty. -/
def initMixer : WebAudioMixer :=
  { nextChannelId := 1
    volume := 1
    settingSoundVolume := -1
    settingMusicVolume := -1
    adjustSoundVolume := 1
    adjustMusicVolume := 1
    channels := []
    channelMap := []
    sources := [] }

/-- Registry insertion (`WebAudioMixer::RegisterChannel`,
`_channelMap[channelId] = channel`): a fresh key is appended. -/
def RegisterChannel (channelId : ℤ) (m : List ℤ) : List ℤ :=
  if channelId ∈ m then m else m ++ [channelId]

/-- Registry removal (`WebAudioMixer::RemoveChannel`,
`_channelMap.erase(channelId)`). -/
def RemoveChannel (channelId : ℤ) (m : List ℤ) : List ℤ :=
  m.filter (fun x => decide (x ≠ channelId))

/-- Registry lookup (`WebAudioMixer::FindChannel`): resolve the key in the
registry and lock the weak reference against the live-channel list. -/
def FindChannel (st : WebAudioMixer) (channelId : ℤ) : Option WebAudioChannel :=
  if channelId ∈ st.channelMap then
    st.channels.find? (fun c => decide (c.channelId = channelId))
  else
    none

/-- Lazy recomputation of the perceptual volume-adjustment curves
(`WebAudioMixer::UpdateAdjustedSound`); `curve` is the perceptual mapping
`powf(configValue / 100, 10 / 6)` applied to a configuration value, kept
abstract because it is transcendental floating-point arithmetic. -/
def UpdateAdjustedSound (curve : ℤ → ℚ) (cfg : MixerConfig)
    (st : WebAudioMixer) : WebAudioMixer :=
  let st1 :=
    if st.settingSoundVolume ≠ cfg.soundVolume then
      { st with settingSoundVolume := cfg.soundVolume
                adjustSoundVolume := curve cfg.soundVolume }
    else st
  if st1.settingMusicVolume ≠ cfg.rideMusicVolume then
    { st1 with settingMusicVolume := cfg.rideMusicVolume
               adjustMusicVolume := curve cfg.rideMusicVolume }
  else st1

/-- Effective channel volume (`WebAudioMixer::GetAdjustedVolume`). -/
def GetAdjustedVolume (cfg : MixerConfig) (st : WebAudioMixer)
    (ch : WebAudioChannel) : ℚ :=
  let v0 := st.volume *
    (if cfg.masterSoundEnabled then (cfg.masterVolume : ℚ) / 100 else 0)
  let v1 :=
    match ch.group with
    | MixerGroup.Sound =>
        let s := v0 * st.adjustSoundVolume
        if cfg.titleSequence then min s (3 / 4) else s
    | MixerGroup.RideMusic => v0 * st.adjustMusicVolume
    | MixerGroup.TitleMusic => v0 * st.adjustMusicVolume
  (ch.volume : ℚ) * v1 / (kMixerVolumeMax : ℚ)

/-- The `WebAudioUpdateChannel` command built by `WebAudioMixer::UpdateChannel`
for a non-done channel (the byte-offset-to-seconds conversion there is guarded
by `bytesPerSecond > 0`). -/
def updateCommand (cfg : MixerConfig) (st : WebAudioMixer)
    (ch : WebAudioChannel) (restart : Bool) : Command :=
  let bps := ch.format.GetBytesPerSecond
  let offsetSeconds : ℚ := if 0 < bps then (ch.offsetBytes : ℚ) / (bps : ℚ) else 0
  Command.update ch.channelId ch.rate (GetAdjustedVolume cfg st ch) ch.pan
    (some offsetSeconds) restart

/-- Parameter push for one channel (`WebAudioMixer::UpdateChannel`): a done
channel produces no backend command and leaves the mixer untouched; otherwise
the adjustment curves are refreshed and one update command is emitted. -/
def UpdateChannel (curve : ℤ → ℚ) (cfg : MixerConfig) (st : WebAudioMixer)
    (ch : WebAudioChannel) (restart : Bool) : WebAudioMixer × List Command :=
  if ch.done then (st, [])
  else
    let st1 := UpdateAdjustedSound curve cfg st
    (st1, [updateCommand cfg st1 ch restart])

/-- Channel rate setter (`WebAudioChannel::SetRate`): floor-clamps the rate to
0.001 and pushes parameters. -/
def SetRate (curve : ℤ → ℚ) (cfg : MixerConfig) (st : WebAudioMixer)
    (ch : WebAudioChannel) (rate : ℚ) :
    WebAudioChannel × WebAudioMixer × List Command :=
  let ch1 := { ch with rate := max (1 / 1000) rate }
  let p := UpdateChannel curve cfg st ch1 false
  (ch1, p.1, p.2)

/-- Channel volume setter (`WebAudioChannel::SetVolume`): clamps to
`[0, kMixerVolumeMax]` and pushes parameters. -/
def SetChannelVolume (curve : ℤ → ℚ) (cfg : MixerConfig) (st : WebAudioMixer)
    (ch : WebAudioChannel) (volume : ℤ) :
    WebAudioChannel × WebAudioMixer × List Command :=
  let ch1 := { ch with volume := max 0 (min volume kMixerVolumeMax) }
  let p := UpdateChannel curve cfg st ch1 false
  (ch1, p.1, p.2)

/-- Clamp of the pan argument to `[0, 1]` (`std::clamp(pan, 0.0f, 1.0f)`). -/
def panClamp (p : ℚ) : ℚ := min (max p 0) 1

/-- Channel pan setter (`WebAudioChannel::SetPan`): clamps to `[0, 1]` and
pushes parameters. The derived stereo gains are modelled by `leftGain` /
`rightGain`. -/
def SetPan (curve : ℤ → ℚ) (cfg : MixerConfig) (st : WebAudioMixer)
    (ch : WebAudioChannel) (pan : ℚ) :
    WebAudioChannel × WebAudioMixer × List Command :=
  let ch1 := { ch with pan := panClamp pan }
  let p := UpdateChannel curve cfg st ch1 false
  (ch1, p.1, p.2)

/-- Channel group setter (`WebAudioChannel::SetGroup`). -/
def SetGroup (curve : ℤ → ℚ) (cfg : MixerConfig) (st : WebAudioMixer)
    (ch : WebAudioChannel) (group : MixerGroup) :
    WebAudioChannel × WebAudioMixer × List Command :=
  let ch1 := { ch with group := group }
  let p := UpdateChannel curve cfg st ch1 false
  (ch1, p.1, p.2)

/-- Channel offset setter (`WebAudioChannel::SetOffset`): fails when the
captured format has zero bytes per second, otherwise records the byte offset
and requests a restart at that offset. -/
def SetOffset (curve : ℤ → ℚ) (cfg : MixerConfig) (st : WebAudioMixer)
    (ch : WebAudioChannel) (offset : ℕ) :
    Bool × WebAudioChannel × WebAudioMixer × List Command :=
  if ch.format.GetBytesPerSecond = 0 then (false, ch, st, [])
  else
    let ch1 := { ch with offsetBytes := offset }
    let p := UpdateChannel curve cfg st ch1 true
    (true, ch1, p.1, p.2)

/-- Channel stop request (`WebAudioChannel::Stop`): only flags the channel. -/
def StopChannel (ch : WebAudioChannel) : WebAudioChannel :=
  { ch with stopping := true }

/-- Apply `WebAudioChannel::Stop` to the live channel with the given id. -/
def stopChannelById (channelId : ℤ) (st : WebAudioMixer) : WebAudioMixer :=
  { st with
    channels := st.channels.map
      (fun c => if c.channelId = channelId then StopChannel c else c) }

/-- Offset query (`WebAudioMixer::GetChannelOffsetBytes`): returns 0 when the
captured format has zero bytes per second; otherwise the backend-reported
position in seconds (the oracle argument) is converted to bytes. -/
def GetChannelOffsetBytes (ch : WebAudioChannel) (backendSeconds : ℚ) : ℕ :=
  let bps := ch.format.GetBytesPerSecond
  if bps = 0 then 0
  else Int.toNat ⌊backendSeconds * (bps : ℚ)⌋

/-- State of a fresh `WebAudioChannel` right after its constructor ran: the
constructor body calls `SetRate(1)`, `SetVolume(kMixerVolumeMax)` and
`SetPan(0.5)`; their parameter pushes are suppressed because the channel is
still flagged done. -/
def freshChannel (channelId : ℤ) : WebAudioChannel :=
  { channelId := channelId
    source := none
    format := { freq := 0, format := 0, channels := 0 }
    offsetBytes := 0
    group := MixerGroup.Sound
    rate := max (1 / 1000) 1
    loop := 0
    volume := max 0 (min kMixerVolumeMax kMixerVolumeMax)
    pan := panClamp (1 / 2)
    stopping := false
    done := true
    deleteOnDone := false }

/-- Rebinding of a source to a channel (`WebAudioChannel::Play`): binds the
source and loop flag, resets the offset and clears the done flag. -/
def ChannelPlay (ch : WebAudioChannel) (src : ℕ) (loop : ℤ) : WebAudioChannel :=
  { ch with source := some src, loop := loop, offsetBytes := 0, done := false }

/-- The format-conversion stage of `WebAudioMixer::Play`: formats other than
signed 16-bit and unsigned 8-bit go through `ConvertToS16`, whose SDL outcome
is the source's conversion oracle. -/
def playConverted (s : SDLAudioSource) : Option (AudioFormat × List ℤ) :=
  if s.format.format ≠ AUDIO_S16SYS ∧ s.format.format ≠ AUDIO_U8 then
    match s.cvtResult with
    | none => none
    | some d => some ({ s.format with format := AUDIO_S16SYS }, d)
  else some (s.format, s.data)

/-- Play operation (`WebAudioMixer::Play`): validates the source, converts the
payload, allocates the next channel id, constructs and registers the channel,
recomputes the adjustment curves, and issues one backend start command whose
offset-in-seconds division is unguarded (`none` models the non-finite result
of a zero `bytesPerSecond`). -/
def Play (curve : ℤ → ℚ) (cfg : MixerConfig) (st : WebAudioMixer)
    (src : SourcePtr) (loop : ℤ) (deleteondone : Bool) :
    Option WebAudioChannel × WebAudioMixer × List Command :=
  match src with
  | SourcePtr.null => (none, st, [])
  | SourcePtr.incompatible => (none, st, [])
  | SourcePtr.sdl s =>
    match playConverted s with
    | none => (none, st, [])
    | some (format, data) =>
      let floatData := ConvertToFloat format.format data
      if format.channels ≤ 0 then (none, st, [])
      else
        let frames : ℤ := (floatData.length : ℤ) / format.channels
        if frames ≤ 0 then (none, st, [])
        else
          let channelId := st.nextChannelId
          let ch0 := freshChannel channelId
          let ch1 := { ch0 with format := format }
          let ch2 := ChannelPlay ch1 s.sid loop
          let ch3 := { ch2 with deleteOnDone := deleteondone }
          let st1 := { st with
            nextChannelId := st.nextChannelId + 1
            channels := st.channels ++ [ch3]
            channelMap := RegisterChannel channelId st.channelMap }
          let st2 := UpdateAdjustedSound curve cfg st1
          let adjustedVolume := GetAdjustedVolume cfg st2 ch3
          let bps := format.GetBytesPerSecond
          let offsetSeconds : Option ℚ :=
            if bps = 0 then none else some ((ch3.offsetBytes : ℚ) / (bps : ℚ))
          (some ch3, st2,
            [Command.play channelId format.channels frames format.freq loop
              ch3.rate adjustedVolume ch3.pan offsetSeconds])

/-- Result of one pass of the `Tick` loop over a channel list: the threaded
mixer state, the kept channels, the removed channels (with their done flag
set), and the emitted backend commands. -/
structure TickOut where
  st : WebAudioMixer
  kept : List WebAudioChannel
  removed : List WebAudioChannel
  cmds : List Command
deriving DecidableEq, Repr

/-- The channel loop of `WebAudioMixer::Tick`: a stopping channel gets one
backend stop command, is marked done and is removed from both the list and the
registry; a live non-done channel gets a parameter push; a done channel is
skipped. -/
def tickLoop (curve : ℤ → ℚ) (cfg : MixerConfig) :
    List WebAudioChannel → WebAudioMixer → TickOut
  | [], st => { st := st, kept := [], removed := [], cmds := [] }
  | ch :: rest, st =>
    if ch.stopping then
      let st1 := { st with channelMap := RemoveChannel ch.channelId st.channelMap }
      let out := tickLoop curve cfg rest st1
      { st := out.st
        kept := out.kept
        removed := { ch with done := true } :: out.removed
        cmds := Command.stop ch.channelId :: out.cmds }
    else if ch.done then
      let out := tickLoop curve cfg rest st
      { out with kept := ch :: out.kept }
    else
      let p := UpdateChannel curve cfg st ch false
      let out := tickLoop curve cfg rest p.1
      { st := out.st
        kept := ch :: out.kept
        removed := out.removed
        cmds := p.2 ++ out.cmds }

/-- Periodic reconciliation (`WebAudioMixer::Tick`): refresh the adjustment
curves, run the channel loop, store the surviving channels and sweep released
sources from the pool. Also returns the removed channels and the emitted
backend commands. -/
def Tick (curve : ℤ → ℚ) (cfg : MixerConfig) (st : WebAudioMixer) :
    WebAudioMixer × List WebAudioChannel × List Command :=
  let st0 := UpdateAdjustedSound curve cfg st
  let out := tickLoop curve cfg st0.channels st0
  ({ out.st with
      channels := out.kept
      sources := out.st.sources.filter (fun s => s.released = false) },
    out.removed, out.cmds)

/-- Master volume setter (`WebAudioMixer::SetVolume`): stores the scalar and
runs a full `Tick`. -/
def SetMixerVolume (curve : ℤ → ℚ) (cfg : MixerConfig) (volume : ℚ)
    (st : WebAudioMixer) : WebAudioMixer × List WebAudioChannel × List Command :=
  Tick curve cfg { st with volume := volume }

/-- Asynchronous completion callback (`WebAudioMixer::OnChannelEnded`): resolve
the id in the registry; when found, mark the channel done and remove it from
both the live list and the registry; otherwise a silent no-op. Returns the
finalised channel when one was found. -/
def OnChannelEnded (st : WebAudioMixer) (channelId : ℤ) :
    WebAudioMixer × Option WebAudioChannel :=
  match FindChannel st channelId with
  | none => (st, none)
  | some ch =>
    ({ st with
        channels := st.channels.filter (fun c => decide (c.channelId ≠ channelId))
        channelMap := RemoveChannel channelId st.channelMap },
      some { ch with done := true })

/-- Shutdown (`WebAudioMixer::Close`): stop every live channel on the backend
and clear the live list, the registry and the source pool. -/
def Close (st : WebAudioMixer) : WebAudioMixer × List Command :=
  ({ st with channels := [], channelMap := [], sources := [] },
    st.channels.map (fun c => Command.stop c.channelId))

/-- Source-pool insertion (`WebAudioMixer::AddSource`). -/
def AddSource (st : WebAudioMixer) (s : SDLAudioSource) : WebAudioMixer :=
  { st with sources := st.sources ++ [s] }

/-- One public operation on the mixer. -/
inductive MixerOp where
  | play (src : SourcePtr) (loop : ℤ) (deleteondone : Bool) : MixerOp
  | tick : MixerOp
  | ended (channelId : ℤ) : MixerOp
  | close : MixerOp
  | setVolume (volume : ℚ) : MixerOp
  | stopChannel (channelId : ℤ) : MixerOp
  | addSource (s : SDLAudioSource) : MixerOp
deriving DecidableEq, Repr

/-- Observable outcome of one operation: the new state, the emitted backend
commands, the id returned by a successful `Play`, and the channels finalised
(marked done and removed) by this operation. -/
structure StepOut where
  state : WebAudioMixer
  commands : List Command
  played : Option ℤ
  removed : List WebAudioChannel
deriving DecidableEq, Repr

/-- Apply one public operation to the mixer state. -/
def step (curve : ℤ → ℚ) (cfg : MixerConfig) (st : WebAudioMixer) :
    MixerOp → StepOut
  | MixerOp.play src loop deleteondone =>
    let r := Play curve cfg st src loop deleteondone
    { state := r.2.1, commands := r.2.2
      played := r.1.map (fun c => c.channelId), removed := [] }
  | MixerOp.tick =>
    let r := Tick curve cfg st
    { state := r.1, commands := r.2.2, played := none, removed := r.2.1 }
  | MixerOp.ended channelId =>
    let r := OnChannelEnded st channelId
    { state := r.1, commands := [], played := none, removed := r.2.toList }
  | MixerOp.close =>
    let r := Close st
    { state := r.1, commands := r.2, played := none, removed := [] }
  | MixerOp.setVolume v =>
    let r := SetMixerVolume curve cfg v st
    { state := r.1, commands := r.2.2, played := none, removed := r.2.1 }
  | MixerOp.stopChannel channelId =>
    { state := stopChannelById channelId st, commands := []
      played := none, removed := [] }
  | MixerOp.addSource s =>
    { state := AddSource st s, commands := [], played := none, removed := [] }

/-- Run a sequence of operations, returning the final state. -/
def runState (curve : ℤ → ℚ) (cfg : MixerConfig) :
    WebAudioMixer → List MixerOp → WebAudioMixer
  | st, [] => st
  | st, op :: rest => runState curve cfg (step curve cfg st op).state rest

/-- The channel ids returned by the successful `Play` calls of a run, in
order. -/
def playedIds (curve : ℤ → ℚ) (cfg : MixerConfig) :
    WebAudioMixer → List MixerOp → List ℤ
  | _, [] => []
  | st, op :: rest =>
    (step curve cfg st op).played.toList ++
      playedIds curve cfg (step curve cfg st op).state rest

/-- How many operations of a run finalise (mark done and remove) the channel
with the given id. -/
def removedCount (curve : ℤ → ℚ) (cfg : MixerConfig) (channelId : ℤ) :
    WebAudioMixer → List MixerOp → ℕ
  | _, [] => 0
  | st, op :: rest =>
    ((step curve cfg st op).removed.filter
        (fun c => decide (c.channelId = channelId))).length +
      removedCount curve cfg channelId (step curve cfg st op).state rest

/-- Ids of the live channels of a mixer state. -/
def liveIds (st : WebAudioMixer) : List ℤ :=
  st.channels.map (fun c => c.channelId)

/-- Number of backend stop commands for a given id in a command list. -/
def stopCount (channelId : ℤ) (cmds : List Command) : ℕ :=
  (cmds.filter (fun c => decide (c = Command.stop channelId))).length

/-- Consistency invariant of the mixer state: live ids and registry keys are
duplicate-free and coincide, the counter is at least 1, and every live channel
has a past id and a cleared done flag. -/
def goodState (st : WebAudioMixer) : Prop :=
  (liveIds st).Nodup ∧
  st.channelMap.Nodup ∧
  (∀ i ∈ st.channelMap, i ∈ liveIds st) ∧
  (∀ c ∈ st.channels, c.channelId ∈ st.channelMap) ∧
  1 ≤ st.nextChannelId ∧
  ∀ c ∈ st.channels, 1 ≤ c.channelId ∧ c.channelId < st.nextChannelId ∧
    c.done = false

instance (st : WebAudioMixer) : Decidable (goodState st) := by
  unfold goodState; infer_instance

/-- The pan-law attenuation factor computed by `WebAudioChannel::SetPan`:
`pow(10, (abs(pan - 0.5) * 2 * 100) / 20)`, over the reals. -/
noncomputable def panAttenuation (p : ℝ) : ℝ :=
  (10 : ℝ) ^ ((|p - 1 / 2| * 2 * 100) / 20)

/-- Left stereo gain stored by `WebAudioChannel::SetPan` for a stored pan
value: 1 when the pan leans left or is centred, otherwise the attenuated
side. -/
noncomputable def leftGainStored (p : ℝ) : ℝ :=
  if p ≤ 1 / 2 then 1 else 1 / panAttenuation p

/-- Right stereo gain stored by `WebAudioChannel::SetPan` for a stored pan
value. -/
noncomputable def rightGainStored (p : ℝ) : ℝ :=
  if p ≤ 1 / 2 then 1 / panAttenuation p else 1

/-- Clamp of the pan argument over the reals. -/
def panClampR (p : ℝ) : ℝ := min (max p 0) 1

/-- Left stereo gain produced by `WebAudioChannel::SetPan` for a raw pan
argument (clamped first, as in the setter). -/
noncomputable def leftGain (p : ℝ) : ℝ := leftGainStored (panClampR p)

/-- Right stereo gain produced by `WebAudioChannel::SetPan` for a raw pan
argument. -/
noncomputable def rightGain (p : ℝ) : ℝ := rightGainStored (panClampR p)

/-- Failure condition of `WebAudioMixer::Play` as the specification states it:
null source, incompatible concrete source type, failed conversion to signed
16-bit, non-positive channel count, or zero computed frame count. -/
def playFails (src : SourcePtr) : Prop :=
  match src with
  | SourcePtr.null => True
  | SourcePtr.incompatible => True
  | SourcePtr.sdl s =>
    match playConverted s with
    | none => True
    | some (format, data) =>
      format.channels ≤ 0 ∨
        (0 < format.channels ∧
          ((ConvertToFloat format.format data).length : ℤ) / format.channels = 0)

/-- Ids of the stopping channels of a list, in order. -/
def stoppedIds (L : List WebAudioChannel) : List ℤ :=
  (L.filter (fun c => c.stopping)).map (fun c => c.channelId)

/-- The backend commands the `Tick` loop emits for one channel. -/
def tickCmdSpec (cfg : MixerConfig) (st : WebAudioMixer)
    (ch : WebAudioChannel) : List Command :=
  if ch.stopping then [Command.stop ch.channelId]
  else if ch.done then [] else [updateCommand cfg st ch false]

/-- Upper bound on how many future operations may still finalise the channel
with the given id: one if the id is live or not yet allocated, zero if it was
allocated in the past and is no longer live. -/
def removalBound (st : WebAudioMixer) (channelId : ℤ) : ℕ :=
  if channelId ∈ liveIds st then 1
  else if channelId < st.nextChannelId then 0 else 1

/-- Offset-in-seconds argument carried by a backend command, when it has
one. -/
def commandOffset : Command → Option (Option ℚ)
  | Command.play _ _ _ _ _ _ _ _ off => some off
  | Command.update _ _ _ _ off _ => some off
  | Command.stop _ => none

/-- A concrete perceptual curve for witness evaluations. -/
def curve0 : ℤ → ℚ := fun _ => 1

/-- A concrete configuration for witness evaluations. -/
def cfg0 : MixerConfig :=
  { soundVolume := 100, rideMusicVolume := 100, masterVolume := 100,
    masterSoundEnabled := true, titleSequence := false }

/-- A well-formed one-frame signed-16-bit mono source for witness
evaluations. -/
def srcGood : SDLAudioSource :=
  { sid := 0, format := { freq := 22050, format := AUDIO_S16SYS, channels := 1 },
    data := [0, 0], cvtResult := none, released := false }

/-- A source whose format has sample rate 0 (hence zero bytes per second),
one unsigned 8-bit sample, one channel. -/
def srcFreqZero : SDLAudioSource :=
  { sid := 0, format := { freq := 0, format := AUDIO_U8, channels := 1 },
    data := [0], cvtResult := none, released := false }

/-- A mixer holding exactly one live channel with id 1. -/
def stOneLive : WebAudioMixer :=
  { initMixer with
      nextChannelId := 2
      channels := [{ freshChannel 1 with done := false }]
      channelMap := [1] }

/-- Two successive Play operations on the good source. -/
def opsTwoPlays : List MixerOp :=
  [MixerOp.play (SourcePtr.sdl srcGood) 0 false,
   MixerOp.play (SourcePtr.sdl srcGood) 0 false]

/-! ## Structural lemmas -/

@[simp]
theorem uas_channels (curve : ℤ → ℚ) (cfg : MixerConfig) (st : WebAudioMixer) :
    (UpdateAdjustedSound curve cfg st).channels = st.channels := by
  unfold UpdateAdjustedSound
  split <;> (dsimp only; split <;> rfl)

@[simp]
theorem uas_channelMap (curve : ℤ → ℚ) (cfg : MixerConfig) (st : WebAudioMixer) :
    (UpdateAdjustedSound curve cfg st).channelMap = st.channelMap := by
  unfold UpdateAdjustedSound
  split <;> (dsimp only; split <;> rfl)

@[simp]
theorem uas_sources (curve : ℤ → ℚ) (cfg : MixerConfig) (st : WebAudioMixer) :
    (UpdateAdjustedSound curve cfg st).sources = st.sources := by
  unfold UpdateAdjustedSound
  split <;> (dsimp only; split <;> rfl)

@[simp]
theorem uas_nextChannelId (curve : ℤ → ℚ) (cfg : MixerConfig) (st : WebAudioMixer) :
    (UpdateAdjustedSound curve cfg st).nextChannelId = st.nextChannelId := by
  unfold UpdateAdjustedSound
  split <;> (dsimp only; split <;> rfl)

@[simp]
theorem uas_volume (curve : ℤ → ℚ) (cfg : MixerConfig) (st : WebAudioMixer) :
    (UpdateAdjustedSound curve cfg st).volume = st.volume := by
  unfold UpdateAdjustedSound
  split <;> (dsimp only; split <;> rfl)

@[simp]
theorem uas_settingSound (curve : ℤ → ℚ) (cfg : MixerConfig) (st : WebAudioMixer) :
    (UpdateAdjustedSound curve cfg st).settingSoundVolume = cfg.soundVolume := by
  unfold UpdateAdjustedSound
  split <;> (dsimp only; split <;> simp_all)

@[simp]
theorem uas_settingMusic (curve : ℤ → ℚ) (cfg : MixerConfig) (st : WebAudioMixer) :
    (UpdateAdjustedSound curve cfg st).settingMusicVolume = cfg.rideMusicVolume := by
  unfold UpdateAdjustedSound
  split <;> (dsimp only; split <;> simp_all)

theorem uas_eq_self (curve : ℤ → ℚ) (cfg : MixerConfig) (st : WebAudioMixer)
    (h1 : st.settingSoundVolume = cfg.soundVolume)
    (h2 : st.settingMusicVolume = cfg.rideMusicVolume) :
    UpdateAdjustedSound curve cfg st = st := by
  unfold UpdateAdjustedSound
  simp [h1, h2]

theorem uas_idem (curve : ℤ → ℚ) (cfg : MixerConfig) (st : WebAudioMixer) :
    UpdateAdjustedSound curve cfg (UpdateAdjustedSound curve cfg st) =
      UpdateAdjustedSound curve cfg st :=
  uas_eq_self curve cfg _ (uas_settingSound curve cfg st)
    (uas_settingMusic curve cfg st)

theorem uc_done_eq (curve : ℤ → ℚ) (cfg : MixerConfig) (st : WebAudioMixer)
    (ch : WebAudioChannel) (r : Bool) (h : ch.done = true) :
    UpdateChannel curve cfg st ch r = (st, []) := by
  unfold UpdateChannel
  simp [h]

theorem uc_not_done_eq (curve : ℤ → ℚ) (cfg : MixerConfig) (st : WebAudioMixer)
    (ch : WebAudioChannel) (r : Bool) (h : ch.done = false) :
    UpdateChannel curve cfg st ch r =
      (UpdateAdjustedSound curve cfg st,
        [updateCommand cfg (UpdateAdjustedSound curve cfg st) ch r]) := by
  unfold UpdateChannel
  simp [h]

@[simp]
theorem uc_fst_channels (curve : ℤ → ℚ) (cfg : MixerConfig) (st : WebAudioMixer)
    (ch : WebAudioChannel) (r : Bool) :
    (UpdateChannel curve cfg st ch r).1.channels = st.channels := by
  unfold UpdateChannel
  split <;> simp

@[simp]
theorem uc_fst_channelMap (curve : ℤ → ℚ) (cfg : MixerConfig) (st : WebAudioMixer)
    (ch : WebAudioChannel) (r : Bool) :
    (UpdateChannel curve cfg st ch r).1.channelMap = st.channelMap := by
  unfold UpdateChannel
  split <;> simp

@[simp]
theorem uc_fst_sources (curve : ℤ → ℚ) (cfg : MixerConfig) (st : WebAudioMixer)
    (ch : WebAudioChannel) (r : Bool) :
    (UpdateChannel curve cfg st ch r).1.sources = st.sources := by
  unfold UpdateChannel
  split <;> simp

@[simp]
theorem uc_fst_nextChannelId (curve : ℤ → ℚ) (cfg : MixerConfig)
    (st : WebAudioMixer) (ch : WebAudioChannel) (r : Bool) :
    (UpdateChannel curve cfg st ch r).1.nextChannelId = st.nextChannelId := by
  unfold UpdateChannel
  split <;> simp

/-! ## Characterisation of the Tick loop -/

theorem tickCmdSpec_channelMap_irrel (cfg : MixerConfig) (st : WebAudioMixer)
    (m : List ℤ) :
    tickCmdSpec cfg { st with channelMap := m } = tickCmdSpec cfg st := rfl

theorem tickLoop_run (curve : ℤ → ℚ) (cfg : MixerConfig)
    (L : List WebAudioChannel) (st : WebAudioMixer)
    (h1 : st.settingSoundVolume = cfg.soundVolume)
    (h2 : st.settingMusicVolume = cfg.rideMusicVolume) :
    tickLoop curve cfg L st =
      { st := { st with channelMap :=
          st.channelMap.filter (fun i => decide (i ∉ stoppedIds L)) }
        kept := L.filter (fun c => c.stopping = false)
        removed := (L.filter (fun c => c.stopping)).map
          (fun c => { c with done := true })
        cmds := L.flatMap (tickCmdSpec cfg st) } := by
  induction L generalizing st with
  | nil =>
    simp [tickLoop, stoppedIds]
  | cons ch rest ih =>
    by_cases hstop : ch.stopping
    · have hrec := ih { st with channelMap := RemoveChannel ch.channelId st.channelMap } h1 h2
      have hcons : stoppedIds (ch :: rest) = ch.channelId :: stoppedIds rest := by
        simp [stoppedIds, hstop]
      have hmap : (RemoveChannel ch.channelId st.channelMap).filter
            (fun i => decide (i ∉ stoppedIds rest)) =
          st.channelMap.filter (fun i => decide (i ∉ stoppedIds (ch :: rest))) := by
        unfold RemoveChannel
        rw [List.filter_filter]
        apply List.filter_congr
        intro x _
        rw [hcons]
        simp [List.mem_cons, decide_not, not_or, Bool.and_comm]
      simp only [tickLoop, if_pos hstop]
      rw [hrec, tickCmdSpec_channelMap_irrel]
      dsimp only
      simp only [TickOut.mk.injEq]
      refine ⟨by rw [hmap], ?_, ?_, ?_⟩
      · simp [List.filter_cons, hstop]
      · simp [List.filter_cons, hstop]
      · simp [List.flatMap_cons, tickCmdSpec, hstop]
    · have hcons : stoppedIds (ch :: rest) = stoppedIds rest := by
        simp [stoppedIds, hstop]
      have hrec := ih st h1 h2
      by_cases hdone : ch.done
      · simp only [tickLoop, if_neg hstop, if_pos hdone]
        rw [hrec]
        simp only [TickOut.mk.injEq]
        refine ⟨by rw [hcons], ?_, ?_, ?_⟩
        · simp [List.filter_cons, hstop]
        · simp [List.filter_cons, hstop]
        · simp [List.flatMap_cons, tickCmdSpec, hstop, hdone]
      · have hb : ch.done = false := by simp [hdone]
        simp only [tickLoop, if_neg hstop, if_neg hdone]
        rw [uc_not_done_eq curve cfg st ch false hb, uas_eq_self curve cfg st h1 h2]
        dsimp only
        rw [hrec]
        simp only [TickOut.mk.injEq]
        refine ⟨by rw [hcons], ?_, ?_, ?_⟩
        · simp [List.filter_cons, hstop]
        · simp [List.filter_cons, hstop]
        · simp [List.flatMap_cons, tickCmdSpec, hstop, hdone]

/-- Explicit form of one `Tick`: the adjustment curves are refreshed, the
stopping channels are removed from the live list and the registry and come
back marked done, one stop command is emitted per stopping channel and one
update command per live non-done channel, and released sources are swept. -/
theorem Tick_eq (curve : ℤ → ℚ) (cfg : MixerConfig) (st : WebAudioMixer) :
    Tick curve cfg st =
      ({ UpdateAdjustedSound curve cfg st with
          channels := st.channels.filter (fun c => c.stopping = false)
          channelMap := st.channelMap.filter
            (fun i => decide (i ∉ stoppedIds st.channels))
          sources := st.sources.filter (fun s => s.released = false) },
        (st.channels.filter (fun c => c.stopping)).map
          (fun c => { c with done := true }),
        st.channels.flatMap (tickCmdSpec cfg (UpdateAdjustedSound curve cfg st))) := by
  unfold Tick
  dsimp only
  rw [tickLoop_run curve cfg (UpdateAdjustedSound curve cfg st).channels
    (UpdateAdjustedSound curve cfg st) (uas_settingSound curve cfg st)
    (uas_settingMusic curve cfg st)]
  dsimp only
  simp only [uas_channels, uas_channelMap, uas_sources]

theorem FindChannel_none_of_not_mem (st : WebAudioMixer) (channelId : ℤ)
    (h : channelId ∉ st.channelMap) : FindChannel st channelId = none := by
  unfold FindChannel
  rw [if_neg h]

theorem OnChannelEnded_not_found (st : WebAudioMixer) (channelId : ℤ)
    (h : FindChannel st channelId = none) :
    OnChannelEnded st channelId = (st, none) := by
  unfold OnChannelEnded
  rw [h]

theorem OnChannelEnded_found (st : WebAudioMixer) (channelId : ℤ)
    (ch : WebAudioChannel) (h : FindChannel st channelId = some ch) :
    OnChannelEnded st channelId =
      ({ st with
          channels := st.channels.filter (fun c => decide (c.channelId ≠ channelId))
          channelMap := RemoveChannel channelId st.channelMap },
        some { ch with done := true }) := by
  unfold OnChannelEnded
  rw [h]

/-! ## Preservation of the consistency invariant -/

theorem mem_liveIds_iff (st : WebAudioMixer) (i : ℤ) :
    i ∈ liveIds st ↔ ∃ c, c ∈ st.channels ∧ c.channelId = i := by
  simp [liveIds]

theorem goodState_initMixer : goodState initMixer := by
  decide

theorem goodState_uas (curve : ℤ → ℚ) (cfg : MixerConfig) (st : WebAudioMixer)
    (h : goodState st) : goodState (UpdateAdjustedSound curve cfg st) := by
  unfold goodState liveIds at h ⊢
  simp only [uas_channels, uas_channelMap, uas_nextChannelId]
  exact h

theorem goodState_volume (st : WebAudioMixer) (v : ℚ) (h : goodState st) :
    goodState { st with volume := v } := h

theorem goodState_insert (st : WebAudioMixer) (ch : WebAudioChannel)
    (h : goodState st) (hid : ch.channelId = st.nextChannelId)
    (hdone : ch.done = false) :
    goodState { st with
      nextChannelId := st.nextChannelId + 1
      channels := st.channels ++ [ch]
      channelMap := RegisterChannel ch.channelId st.channelMap } := by
  obtain ⟨hn1, hn2, hmm, hcm, hnext, hlt⟩ := h
  have hnotlive : ch.channelId ∉ liveIds st := by
    intro hmem
    obtain ⟨c, hc, hcid⟩ := (mem_liveIds_iff st ch.channelId).mp hmem
    have := (hlt c hc).2.1
    omega
  have hnotmap : ch.channelId ∉ st.channelMap := fun hm => hnotlive (hmm _ hm)
  have hreg : RegisterChannel ch.channelId st.channelMap =
      st.channelMap ++ [ch.channelId] := by
    unfold RegisterChannel
    rw [if_neg hnotmap]
  unfold goodState liveIds
  dsimp only
  refine ⟨?_, ?_, ?_, ?_, ?_, ?_⟩
  · show ((st.channels ++ [ch]).map (fun c => c.channelId)).Nodup
    rw [List.map_append]
    refine List.nodup_append.mpr ⟨hn1, by simp, ?_⟩
    intro a ha hb
    simp only [List.map_cons, List.map_nil, List.mem_singleton] at hb
    subst hb
    exact hnotlive ha
  · show (RegisterChannel ch.channelId st.channelMap).Nodup
    rw [hreg]
    refine List.nodup_append.mpr ⟨hn2, by simp, ?_⟩
    intro a ha hb
    simp only [List.mem_singleton] at hb
    subst hb
    exact hnotmap ha
  · intro i hi
    rw [hreg, List.mem_append] at hi
    show i ∈ (st.channels ++ [ch]).map (fun c => c.channelId)
    rw [List.map_append, List.mem_append]
    rcases hi with hi | hi
    · exact Or.inl (hmm i hi)
    · simp only [List.mem_singleton] at hi
      subst hi
      simp
  · intro c hc
    rw [List.mem_append] at hc
    rw [hreg, List.mem_append]
    rcases hc with hc | hc
    · exact Or.inl (hcm c hc)
    · simp only [List.mem_singleton] at hc
      subst hc
      simp
  · show 1 ≤ st.nextChannelId + 1
    omega
  · intro c hc
    rw [List.mem_append] at hc
    rcases hc with hc | hc
    · obtain ⟨ha, hb, hd⟩ := hlt c hc
      exact ⟨ha, by omega, hd⟩
    · simp only [List.mem_singleton] at hc
      subst hc
      exact ⟨by omega, by omega, hdone⟩

theorem goodState_Play (curve : ℤ → ℚ) (cfg : MixerConfig) (st : WebAudioMixer)
    (src : SourcePtr) (loop : ℤ) (deleteondone : Bool) (h : goodState st) :
    goodState (Play curve cfg st src loop deleteondone).2.1 := by
  rcases src with _ | _ | s
  · exact h
  · exact h
  · unfold Play
    rcases hpc : playConverted s with _ | ⟨format, data⟩
    · simp only [hpc]
      exact h
    · simp only [hpc]
      by_cases hch : format.channels ≤ 0
      · rw [if_pos hch]
        exact h
      · rw [if_neg hch]
        by_cases hfr :
            ((ConvertToFloat format.format data).length : ℤ) / format.channels ≤ 0
        · rw [if_pos hfr]
          exact h
        · rw [if_neg hfr]
          dsimp only
          exact goodState_uas curve cfg _ (goodState_insert st _ h rfl rfl)

theorem goodState_Tick (curve : ℤ → ℚ) (cfg : MixerConfig) (st : WebAudioMixer)
    (h : goodState st) : goodState (Tick curve cfg st).1 := by
  rw [Tick_eq]
  dsimp only
  obtain ⟨hn1, hn2, hmm, hcm, hnext, hlt⟩ := h
  have hinj : ∀ c ∈ st.channels, ∀ c' ∈ st.channels,
      c.channelId = c'.channelId → c = c' := fun c hc c' hc' he =>
    List.inj_on_of_nodup_map hn1 hc hc' he
  refine ⟨?_, ?_, ?_, ?_, ?_, ?_⟩
  · show ((st.channels.filter (fun c => c.stopping = false)).map
      (fun c => c.channelId)).Nodup
    exact ((List.filter_sublist st.channels).map _).nodup hn1
  · exact hn2.filter _
  · intro i hi
    rw [List.mem_filter] at hi
    obtain ⟨hi1, hi2⟩ := hi
    rw [decide_eq_true_iff] at hi2
    obtain ⟨c, hc, hcid⟩ := (mem_liveIds_iff st i).mp (hmm i hi1)
    have hcstop : c.stopping = false := by
      by_contra hcs
      apply hi2
      unfold stoppedIds
      rw [List.mem_map]
      refine ⟨c, ?_, hcid⟩
      rw [List.mem_filter]
      exact ⟨hc, by simp at hcs; simp [hcs]⟩
    show i ∈ (st.channels.filter (fun c => c.stopping = false)).map
      (fun c => c.channelId)
    rw [List.mem_map]
    refine ⟨c, ?_, hcid⟩
    rw [List.mem_filter]
    exact ⟨hc, by simp [hcstop]⟩
  · intro c hc
    rw [List.mem_filter] at hc
    obtain ⟨hc1, hc2⟩ := hc
    rw [decide_eq_true_iff] at hc2
    rw [List.mem_filter]
    refine ⟨hcm c hc1, ?_⟩
    rw [decide_eq_true_iff]
    intro hmem
    unfold stoppedIds at hmem
    rw [List.mem_map] at hmem
    obtain ⟨c', hc', hcid⟩ := hmem
    rw [List.mem_filter] at hc'
    have : c' = c := hinj c' hc'.1 c hc1 hcid
    subst this
    rw [hc2] at hc'
    simp at hc'
  · simpa using hnext
  · intro c hc
    rw [List.mem_filter] at hc
    have := hlt c hc.1
    simpa using this

theorem goodState_OnChannelEnded (st : WebAudioMixer) (channelId : ℤ)
    (h : goodState st) : goodState (OnChannelEnded st channelId).1 := by
  obtain ⟨hn1, hn2, hmm, hcm, hnext, hlt⟩ := h
  rcases hf : FindChannel st channelId with _ | ch
  · rw [OnChannelEnded_not_found st channelId hf]
    exact ⟨hn1, hn2, hmm, hcm, hnext, hlt⟩
  · rw [OnChannelEnded_found st channelId ch hf]
    unfold goodState liveIds RemoveChannel
    dsimp only
    refine ⟨?_, ?_, ?_, ?_, hnext, ?_⟩
    · exact ((List.filter_sublist st.channels).map _).nodup hn1
    · exact hn2.filter _
    · intro i hi
      rw [List.mem_filter] at hi
      obtain ⟨hi1, hi2⟩ := hi
      rw [decide_eq_true_iff] at hi2
      obtain ⟨c, hc, hcid⟩ := (mem_liveIds_iff st i).mp (hmm i hi1)
      show i ∈ (st.channels.filter
        (fun c => decide (c.channelId ≠ channelId))).map (fun c => c.channelId)
      rw [List.mem_map]
      refine ⟨c, ?_, hcid⟩
      rw [List.mem_filter]
      refine ⟨hc, ?_⟩
      rw [decide_eq_true_iff, hcid]
      exact hi2
    · intro c hc
      rw [List.mem_filter] at hc
      obtain ⟨hc1, hc2⟩ := hc
      rw [decide_eq_true_iff] at hc2
      rw [List.mem_filter]
      exact ⟨hcm c hc1, by rw [decide_eq_true_iff]; exact hc2⟩
    · intro c hc
      rw [List.mem_filter] at hc
      exact hlt c hc.1

theorem goodState_Close (st : WebAudioMixer) (h : goodState st) :
    goodState (Close st).1 := by
  obtain ⟨_, _, _, _, hnext, _⟩ := h
  unfold Close goodState liveIds
  dsimp only
  exact ⟨by simp, by simp, by simp, by simp, hnext, by simp⟩

theorem liveIds_stopChannelById (channelId : ℤ) (st : WebAudioMixer) :
    liveIds (stopChannelById channelId st) = liveIds st := by
  unfold stopChannelById liveIds
  dsimp only
  rw [List.map_map]
  apply List.map_congr_left
  intro c _
  by_cases hc : c.channelId = channelId <;> simp [hc, StopChannel]

theorem goodState_stopChannelById (channelId : ℤ) (st : WebAudioMixer)
    (h : goodState st) : goodState (stopChannelById channelId st) := by
  obtain ⟨hn1, hn2, hmm, hcm, hnext, hlt⟩ := h
  refine ⟨?_, hn2, ?_, ?_, hnext, ?_⟩
  · rw [liveIds_stopChannelById]
    exact hn1
  · intro i hi
    rw [liveIds_stopChannelById]
    exact hmm i hi
  · intro c hc
    unfold stopChannelById at hc
    dsimp only at hc
    rw [List.mem_map] at hc
    obtain ⟨c', hc', he⟩ := hc
    have : c.channelId = c'.channelId := by
      subst he
      by_cases hx : c'.channelId = channelId <;> simp [hx, StopChannel]
    rw [this]
    exact hcm c' hc'
  · intro c hc
    unfold stopChannelById at hc
    dsimp only at hc
    rw [List.mem_map] at hc
    obtain ⟨c', hc', he⟩ := hc
    obtain ⟨ha, hb, hd⟩ := hlt c' hc'
    subst he
    by_cases hx : c'.channelId = channelId
    · rw [if_pos hx]
      exact ⟨ha, hb, hd⟩
    · rw [if_neg hx]
      exact ⟨ha, hb, hd⟩

theorem goodState_AddSource (st : WebAudioMixer) (s : SDLAudioSource)
    (h : goodState st) : goodState (AddSource st s) := h

theorem goodState_step (curve : ℤ → ℚ) (cfg : MixerConfig) (st : WebAudioMixer)
    (op : MixerOp) (h : goodState st) : goodState (step curve cfg st op).state := by
  cases op with
  | play src loop deleteondone => exact goodState_Play curve cfg st src loop deleteondone h
  | tick => exact goodState_Tick curve cfg st h
  | ended channelId => exact goodState_OnChannelEnded st channelId h
  | close => exact goodState_Close st h
  | setVolume v => exact goodState_Tick curve cfg _ (goodState_volume st v h)
  | stopChannel channelId => exact goodState_stopChannelById channelId st h
  | addSource s => exact goodState_AddSource st s h

theorem goodState_runState (curve : ℤ → ℚ) (cfg : MixerConfig)
    (ops : List MixerOp) (st : WebAudioMixer) (h : goodState st) :
    goodState (runState curve cfg st ops) := by
  induction ops generalizing st with
  | nil => exact h
  | cons op rest ih => exact ih _ (goodState_step curve cfg st op h)

/-! ## C5: the pan law -/

/-- C5: `SetPan` clamps its argument to `[0, 1]` and computes the stereo gains
from `attenuation(dB) = |p - 0.5| * 2 * 100` and `linearGain =
10 ^ (attenuation / 20)`, giving the side the pan leans toward gain 1 and the
other side gain `1 / linearGain`; consequently `leftGain p = rightGain (1 - p)`
for every `p` in `[0, 1]`, and both gains are 1 at center pan. -/
theorem setPan_pan_law (p : ℝ) (h0 : 0 ≤ p) (h1 : p ≤ 1) :
    leftGain p = rightGain (1 - p) ∧
    leftGain (1 / 2) = 1 ∧ rightGain (1 / 2) = 1 ∧
    (∀ curve cfg st ch q, (SetPan curve cfg st ch q).1.pan = panClamp q) ∧
    (∀ q : ℚ, 0 ≤ panClamp q ∧ panClamp q ≤ 1) := by
  have hatt : ∀ x : ℝ, 0 ≤ x → x ≤ 1 → panClampR x = x := by
    intro x hx0 hx1
    unfold panClampR
    rw [max_eq_left hx0, min_eq_left hx1]
  have hhalf : panAttenuation (1 / 2) = 1 := by
    unfold panAttenuation
    norm_num
  have hsym : panAttenuation (1 - p) = panAttenuation p := by
    unfold panAttenuation
    congr 1
    have : |1 - p - 1 / 2| = |p - 1 / 2| := by
      have h : (1 : ℝ) - p - 1 / 2 = -(p - 1 / 2) := by ring
      rw [h, abs_neg]
    rw [this]
  have h0' : (0 : ℝ) ≤ 1 - p := by linarith
  have h1' : (1 : ℝ) - p ≤ 1 := by linarith
  refine ⟨?_, ?_, ?_, ?_, ?_⟩
  · unfold leftGain rightGain
    rw [hatt p h0 h1, hatt (1 - p) h0' h1']
    unfold leftGainStored rightGainStored
    by_cases hp : p ≤ 1 / 2
    · rcases lt_or_eq_of_le hp with hlt | heq
      · have : ¬ (1 - p ≤ 1 / 2) := by linarith
        rw [if_pos hp, if_neg this]
      · have h2 : (1 : ℝ) - p ≤ 1 / 2 := by rw [heq]; norm_num
        rw [if_pos hp, if_pos h2]
        have h3 : (1 : ℝ) - p = 1 / 2 := by rw [heq]; norm_num
        rw [h3, hhalf]
        norm_num
    · have : (1 : ℝ) - p ≤ 1 / 2 := by linarith
      rw [if_neg hp, if_pos this, hsym]
  · unfold leftGain
    rw [hatt (1 / 2) (by norm_num) (by norm_num)]
    unfold leftGainStored
    norm_num
  · unfold rightGain
    rw [hatt (1 / 2) (by norm_num) (by norm_num)]
    unfold rightGainStored
    rw [if_pos (le_refl _), hhalf]
    norm_num
  · intro curve cfg st ch q
    rfl
  · intro q
    unfold panClamp
    constructor
    · exact le_min (le_max_right q 0) (by norm_num)
    · exact min_le_right _ 1

/-- Witness for C5 at the concrete pan value 0. -/
theorem setPan_pan_law_witness :
    (0 : ℝ) ≤ 0 ∧ (0 : ℝ) ≤ 1 ∧
      (leftGain 0 = rightGain (1 - 0) ∧
        leftGain (1 / 2) = 1 ∧ rightGain (1 / 2) = 1 ∧
        (∀ curve cfg st ch q, (SetPan curve cfg st ch q).1.pan = panClamp q) ∧
        (∀ q : ℚ, 0 ≤ panClamp q ∧ panClamp q ≤ 1)) :=
  ⟨le_refl 0, zero_le_one, setPan_pan_law 0 (le_refl 0) zero_le_one⟩

/-! ## C9: fresh-channel defaults -/

/-- C9 counterexample: immediately after construction a channel's volume is
`kMixerVolumeMax`, the very top of the volume range, not near the bottom: the
constructor calls `SetVolume(kMixerVolumeMax)`, overriding the near-silent
field initialiser. -/
theorem freshChannel_volume_not_near_silent :
    (freshChannel 1).volume = kMixerVolumeMax ∧
    ¬ (freshChannel 1).volume ≤ kMixerVolumeMax / 2 := by
  decide

/-- C9 amended: immediately after construction a channel's rate is 1, its pan
is 0.5 (center), and its volume is `kMixerVolumeMax` (full volume, the top of
the range): the constructor body sets all three. -/
theorem freshChannel_defaults (cid : ℤ) :
    (freshChannel cid).rate = 1 ∧ (freshChannel cid).pan = 1 / 2 ∧
    (freshChannel cid).volume = kMixerVolumeMax := by
  refine ⟨?_, ?_, ?_⟩ <;> simp [freshChannel, panClamp, kMixerVolumeMax] <;>
    norm_num

/-! ## C4: the effective-volume formula -/

/-- C4: the effective channel volume equals `channel.volume × masterScalar ×
(masterEnabled ? masterVolume/100 : 0) × categoryAdjust(group) / MAX`, where
the category adjustment is the cached perceptual curve of the sound or music
configuration volume selected by the channel's group (recomputed from the
curve whenever the configuration value changed); in title-presentation mode
the Sound-category adjustment is capped at 0.75; and the effective volume is 0
whenever the master scalar is 0 or master sound is disabled. -/
theorem GetAdjustedVolume_formula (curve : ℤ → ℚ) (cfg : MixerConfig)
    (st : WebAudioMixer) (ch : WebAudioChannel) :
    ((ch.group = MixerGroup.RideMusic ∨ ch.group = MixerGroup.TitleMusic) →
      GetAdjustedVolume cfg st ch =
        (ch.volume : ℚ) * st.volume *
          (if cfg.masterSoundEnabled then (cfg.masterVolume : ℚ) / 100 else 0) *
          st.adjustMusicVolume / (kMixerVolumeMax : ℚ)) ∧
    (ch.group = MixerGroup.Sound → cfg.titleSequence = false →
      GetAdjustedVolume cfg st ch =
        (ch.volume : ℚ) * st.volume *
          (if cfg.masterSoundEnabled then (cfg.masterVolume : ℚ) / 100 else 0) *
          st.adjustSoundVolume / (kMixerVolumeMax : ℚ)) ∧
    (ch.group = MixerGroup.Sound → cfg.titleSequence = true →
      GetAdjustedVolume cfg st ch =
        (ch.volume : ℚ) *
          min (st.volume *
            (if cfg.masterSoundEnabled then (cfg.masterVolume : ℚ) / 100 else 0) *
            st.adjustSoundVolume) (3 / 4) / (kMixerVolumeMax : ℚ)) ∧
    (ch.group = MixerGroup.Sound → cfg.titleSequence = true → 0 ≤ ch.volume →
      GetAdjustedVolume cfg st ch ≤
        (ch.volume : ℚ) * (3 / 4) / (kMixerVolumeMax : ℚ)) ∧
    ((st.settingSoundVolume ≠ cfg.soundVolume →
        (UpdateAdjustedSound curve cfg st).adjustSoundVolume =
          curve cfg.soundVolume) ∧
      (st.settingMusicVolume ≠ cfg.rideMusicVolume →
        (UpdateAdjustedSound curve cfg st).adjustMusicVolume =
          curve cfg.rideMusicVolume)) ∧
    ((st.volume = 0 ∨ cfg.masterSoundEnabled = false) →
      GetAdjustedVolume cfg st ch = 0) := by
  have hmax : (0 : ℚ) < (kMixerVolumeMax : ℚ) := by norm_num [kMixerVolumeMax]
  refine ⟨?_, ?_, ?_, ?_, ⟨?_, ?_⟩, ?_⟩
  · rintro (hg | hg) <;> · unfold GetAdjustedVolume; rw [hg]; ring
  · intro hg ht
    unfold GetAdjustedVolume
    rw [hg, ht]
    simp only [Bool.false_eq_true, if_false]
    ring
  · intro hg ht
    unfold GetAdjustedVolume
    rw [hg, ht]
    simp only [if_true]
  · intro hg ht hv
    unfold GetAdjustedVolume
    rw [hg, ht]
    simp only [if_true]
    have hle : min (st.volume *
        (if cfg.masterSoundEnabled then (cfg.masterVolume : ℚ) / 100 else 0) *
        st.adjustSoundVolume) (3 / 4) ≤ (3 / 4 : ℚ) := min_le_right _ _
    have hv' : (0 : ℚ) ≤ (ch.volume : ℚ) := by exact_mod_cast hv
    have h2 := mul_le_mul_of_nonneg_left hle hv'
    exact (div_le_div_iff_of_pos_right hmax).mpr h2
  · intro h
    unfold UpdateAdjustedSound
    rw [if_pos h]
    dsimp only
    split <;> rfl
  · intro h
    unfold UpdateAdjustedSound
    split <;> (dsimp only; rw [if_pos h])
  · rintro (h | h) <;>
      · unfold GetAdjustedVolume
        rw [h]
        rcases ch.group <;> simp [min_eq_left, div_eq_mul_inv]

/-- Witness for C4 at a concrete configuration, mixer state and channel. -/
theorem GetAdjustedVolume_formula_witness :
    ((freshChannel 1).group = MixerGroup.Sound) ∧
    (GetAdjustedVolume
        { soundVolume := 100, rideMusicVolume := 100, masterVolume := 100,
          masterSoundEnabled := true, titleSequence := false }
        initMixer (freshChannel 1) =
      ((freshChannel 1).volume : ℚ) * initMixer.volume *
        (if (true : Bool) then ((100 : ℤ) : ℚ) / 100 else 0) *
        initMixer.adjustSoundVolume / (kMixerVolumeMax : ℚ)) :=
  ⟨rfl,
    (GetAdjustedVolume_formula (fun _ => 1)
      { soundVolume := 100, rideMusicVolume := 100, masterVolume := 100,
        masterSoundEnabled := true, titleSequence := false }
      initMixer (freshChannel 1)).2.1 rfl rfl⟩

/-! ## C2: Play failure cases -/

/-- C2: `Play` returns no channel exactly when the source is null, the
source's concrete type is incompatible, the conversion to signed 16-bit fails,
the channel count is non-positive, or the computed frame count is zero; and in
every failure case the state is unchanged and no backend command is issued. -/
theorem Play_failure_spec (curve : ℤ → ℚ) (cfg : MixerConfig)
    (st : WebAudioMixer) (src : SourcePtr) (loop : ℤ) (deleteondone : Bool) :
    ((Play curve cfg st src loop deleteondone).1 = none ↔ playFails src) ∧
    ((Play curve cfg st src loop deleteondone).1 = none →
      Play curve cfg st src loop deleteondone = (none, st, [])) := by
  rcases src with _ | _ | s
  · exact ⟨by simp [Play, playFails], fun _ => rfl⟩
  · exact ⟨by simp [Play, playFails], fun _ => rfl⟩
  · unfold Play playFails
    rcases hc : playConverted s with _ | ⟨format, data⟩
    · simp [hc]
    · simp only [hc]
      by_cases hch : format.channels ≤ 0
      · simp [hch]
      · have hpos : 0 < format.channels := lt_of_not_le hch
        have hnn : (0 : ℤ) ≤
            ((ConvertToFloat format.format data).length : ℤ) / format.channels :=
          Int.ediv_nonneg (Int.ofNat_nonneg _) (le_of_lt hpos)
        by_cases hf :
            ((ConvertToFloat format.format data).length : ℤ) / format.channels ≤ 0
        · have hz : ((ConvertToFloat format.format data).length : ℤ) /
              format.channels = 0 := le_antisymm hf hnn
          simp [hch, hf, hpos, hz]
        · simp [hch, hf]
          omega

/-- Witness for C2 at the null source. -/
theorem Play_failure_spec_witness :
    Play (fun _ => 1)
        { soundVolume := 100, rideMusicVolume := 100, masterVolume := 100,
          masterSoundEnabled := true, titleSequence := false }
        initMixer SourcePtr.null 0 false = (none, initMixer, []) :=
  (Play_failure_spec (fun _ => 1)
    { soundVolume := 100, rideMusicVolume := 100, masterVolume := 100,
      masterSoundEnabled := true, titleSequence := false }
    initMixer SourcePtr.null 0 false).2 rfl

/-! ## C1: the registry and the live list stay in sync -/

/-- C1: after every sequence of public operations on a fresh mixer, the
live-channel ids and the registry key set are duplicate-free and coincide:
each live channel has exactly one registry entry and vice versa, and each
operation performs the paired insertion or removal as one atomic step of the
model (the single mixer lock). -/
theorem registry_live_invariant (curve : ℤ → ℚ) (cfg : MixerConfig)
    (ops : List MixerOp) :
    (liveIds (runState curve cfg initMixer ops)).Nodup ∧
    (runState curve cfg initMixer ops).channelMap.Nodup ∧
    ∀ i, i ∈ (runState curve cfg initMixer ops).channelMap ↔
      i ∈ liveIds (runState curve cfg initMixer ops) := by
  obtain ⟨h1, h2, h3, h4, _, _⟩ :=
    goodState_runState curve cfg ops initMixer goodState_initMixer
  refine ⟨h1, h2, fun i => ⟨h3 i, ?_⟩⟩
  intro hi
  obtain ⟨c, hc, hcid⟩ := (mem_liveIds_iff _ i).mp hi
  rw [show i = c.channelId from hcid.symm]
  exact h4 c hc

/-! ## C10: SetVolume is an assignment followed by a full Tick -/

/-- C10: `SetVolume` on the mixer stores the master scalar and then behaves
exactly like a full `Tick`: it removes every stopping channel (returning it
marked done), pushes one parameter update per live non-done channel and one
stop command per stopping channel, and sweeps released sources from the
pool. -/
theorem SetMixerVolume_spec (curve : ℤ → ℚ) (cfg : MixerConfig) (v : ℚ)
    (st : WebAudioMixer) :
    SetMixerVolume curve cfg v st = Tick curve cfg { st with volume := v } ∧
    (SetMixerVolume curve cfg v st).1.channels =
      st.channels.filter (fun c => c.stopping = false) ∧
    (SetMixerVolume curve cfg v st).1.sources =
      st.sources.filter (fun s => s.released = false) ∧
    (SetMixerVolume curve cfg v st).2.1 =
      (st.channels.filter (fun c => c.stopping)).map
        (fun c => { c with done := true }) ∧
    (SetMixerVolume curve cfg v st).2.2 =
      st.channels.flatMap
        (tickCmdSpec cfg (UpdateAdjustedSound curve cfg { st with volume := v })) := by
  have he : SetMixerVolume curve cfg v st = Tick curve cfg { st with volume := v } := rfl
  rw [he, Tick_eq curve cfg { st with volume := v }]
  exact ⟨rfl, rfl, rfl, rfl, rfl⟩

/-! ## C6: zero bytes-per-second offsets -/

/-- C6: on a channel whose captured format has zero bytes per second,
`SetOffset` returns false with the channel, the mixer and the command stream
untouched, and `GetOffset` returns 0 without querying the backend; but the
start offset computed during `Play` for such a format is an unguarded
division by zero: `Play` on a freq-0 source succeeds and sends the backend a
start command whose offset-in-seconds field is the non-finite marker rather
than 0. -/
theorem offset_zero_bps_eval :
    (SetOffset curve0 cfg0 initMixer (freshChannel 1) 5).1 = false ∧
    (SetOffset curve0 cfg0 initMixer (freshChannel 1) 5).2.1 = freshChannel 1 ∧
    (SetOffset curve0 cfg0 initMixer (freshChannel 1) 5).2.2.1 = initMixer ∧
    (SetOffset curve0 cfg0 initMixer (freshChannel 1) 5).2.2.2 = [] ∧
    GetChannelOffsetBytes (freshChannel 1) 7 = 0 ∧
    commandOffset (updateCommand cfg0 initMixer (freshChannel 1) false) =
      some (some 0) ∧
    (Play curve0 cfg0 initMixer (SourcePtr.sdl srcFreqZero) 0 false).1.isSome = true ∧
    ((Play curve0 cfg0 initMixer (SourcePtr.sdl srcFreqZero) 0 false).2.2).map
      commandOffset = [some none] :=
  ⟨rfl, rfl, rfl, rfl, rfl, rfl, rfl, rfl⟩

/-! ## C8: channel ids are allocated monotonically from 1 -/

theorem step_next_char (curve : ℤ → ℚ) (cfg : MixerConfig) (st : WebAudioMixer)
    (op : MixerOp) :
    ((step curve cfg st op).played = none ∧
      (step curve cfg st op).state.nextChannelId = st.nextChannelId) ∨
    ((step curve cfg st op).played = some st.nextChannelId ∧
      (step curve cfg st op).state.nextChannelId = st.nextChannelId + 1) := by
  cases op with
  | play src loop deleteondone =>
    rcases src with _ | _ | sx
    · exact Or.inl ⟨rfl, rfl⟩
    · exact Or.inl ⟨rfl, rfl⟩
    · unfold step Play
      dsimp only
      rcases hpc : playConverted sx with _ | ⟨format, data⟩
      · exact Or.inl ⟨by simp [hpc], by simp [hpc]⟩
      · simp only [hpc]
        by_cases hch : format.channels ≤ 0
        · rw [if_pos hch]
          exact Or.inl ⟨rfl, rfl⟩
        · rw [if_neg hch]
          by_cases hfr :
              ((ConvertToFloat format.format data).length : ℤ) / format.channels ≤ 0
          · rw [if_pos hfr]
            exact Or.inl ⟨rfl, rfl⟩
          · rw [if_neg hfr]
            dsimp only
            refine Or.inr ⟨rfl, ?_⟩
            rw [uas_nextChannelId]
  | tick =>
    refine Or.inl ⟨rfl, ?_⟩
    show (Tick curve cfg st).1.nextChannelId = st.nextChannelId
    rw [Tick_eq]
    dsimp only
    rw [uas_nextChannelId]
  | ended channelId =>
    refine Or.inl ⟨rfl, ?_⟩
    show (OnChannelEnded st channelId).1.nextChannelId = st.nextChannelId
    rcases hf : FindChannel st channelId with _ | ch
    · rw [OnChannelEnded_not_found st channelId hf]
    · rw [OnChannelEnded_found st channelId ch hf]
  | close => exact Or.inl ⟨rfl, rfl⟩
  | setVolume v =>
    refine Or.inl ⟨rfl, ?_⟩
    show (Tick curve cfg { st with volume := v }).1.nextChannelId = st.nextChannelId
    rw [Tick_eq]
    dsimp only
    rw [uas_nextChannelId]
  | stopChannel channelId => exact Or.inl ⟨rfl, rfl⟩
  | addSource sx => exact Or.inl ⟨rfl, rfl⟩

theorem playedIds_cons (curve : ℤ → ℚ) (cfg : MixerConfig) (st : WebAudioMixer)
    (op : MixerOp) (rest : List MixerOp) :
    playedIds curve cfg st (op :: rest) =
      (step curve cfg st op).played.toList ++
        playedIds curve cfg (step curve cfg st op).state rest := rfl

theorem playedIds_mono (curve : ℤ → ℚ) (cfg : MixerConfig) (ops : List MixerOp) :
    ∀ st : WebAudioMixer,
      List.Pairwise (· < ·) (playedIds curve cfg st ops) ∧
      ∀ i ∈ playedIds curve cfg st ops, st.nextChannelId ≤ i := by
  induction ops with
  | nil =>
    intro st
    simp [playedIds]
  | cons op rest ih =>
    intro st
    obtain ⟨ih1, ih2⟩ := ih (step curve cfg st op).state
    rcases step_next_char curve cfg st op with ⟨hp, hn⟩ | ⟨hp, hn⟩
    · have he : playedIds curve cfg st (op :: rest) =
          playedIds curve cfg (step curve cfg st op).state rest := by
        rw [playedIds_cons, hp]
        simp
      rw [he]
      exact ⟨ih1, fun i hi => by rw [← hn]; exact ih2 i hi⟩
    · have he : playedIds curve cfg st (op :: rest) =
          st.nextChannelId :: playedIds curve cfg (step curve cfg st op).state rest := by
        rw [playedIds_cons, hp]
        simp
      rw [he]
      constructor
      · rw [List.pairwise_cons]
        refine ⟨fun y hy => ?_, ih1⟩
        have := ih2 y hy
        omega
      · intro i hi
        rw [List.mem_cons] at hi
        rcases hi with hi | hi
        · omega
        · have := ih2 i hi
          omega

/-- C8: channel identifiers come from a monotonic counter that starts at 1:
over every operation sequence on a fresh mixer, the ids returned by the
successful Play calls are all at least 1 (hence never 0), strictly
increasing, and never reused. -/
theorem play_ids_monotone (curve : ℤ → ℚ) (cfg : MixerConfig)
    (ops : List MixerOp) :
    initMixer.nextChannelId = 1 ∧
    List.Pairwise (· < ·) (playedIds curve cfg initMixer ops) ∧
    (playedIds curve cfg initMixer ops).Nodup ∧
    ∀ i ∈ playedIds curve cfg initMixer ops, 1 ≤ i := by
  obtain ⟨h1, h2⟩ := playedIds_mono curve cfg ops initMixer
  exact ⟨rfl, h1, h1.imp (fun h => ne_of_lt h), fun i hi => h2 i hi⟩

/-- Witness for C8: two successful Play calls on a fresh mixer return ids 1
and 2. -/
theorem play_ids_monotone_witness :
    playedIds curve0 cfg0 initMixer opsTwoPlays = [1, 2] ∧
    List.Pairwise (· < ·) (playedIds curve0 cfg0 initMixer opsTwoPlays) ∧
    (playedIds curve0 cfg0 initMixer opsTwoPlays).Nodup ∧
    ∀ i ∈ playedIds curve0 cfg0 initMixer opsTwoPlays, 1 ≤ i :=
  ⟨by decide, (play_ids_monotone curve0 cfg0 opsTwoPlays).2.1,
    (play_ids_monotone curve0 cfg0 opsTwoPlays).2.2.1,
    (play_ids_monotone curve0 cfg0 opsTwoPlays).2.2.2⟩

/-! ## C3: teardown is idempotent and exactly-once -/

theorem FindChannel_some_facts (st : WebAudioMixer) (i : ℤ)
    (ch : WebAudioChannel) (h : FindChannel st i = some ch) :
    ch ∈ st.channels ∧ ch.channelId = i := by
  unfold FindChannel at h
  by_cases hm : i ∈ st.channelMap
  · rw [if_pos hm] at h
    refine ⟨List.mem_of_find?_eq_some h, ?_⟩
    have := List.find?_some h
    simpa using this
  · rw [if_neg hm] at h
    cases h

theorem stopCount_flatMap (cfg : MixerConfig) (st : WebAudioMixer)
    (channelId : ℤ) (L : List WebAudioChannel) :
    stopCount channelId (L.flatMap (tickCmdSpec cfg st)) =
      (L.filter (fun c => c.stopping = true ∧ c.channelId = channelId)).length := by
  induction L with
  | nil => rfl
  | cons ch rest ih =>
    rw [List.flatMap_cons]
    unfold stopCount at ih ⊢
    rw [List.filter_append, List.length_append, ih]
    unfold tickCmdSpec
    by_cases hstop : ch.stopping
    · rw [if_pos hstop]
      by_cases hid : ch.channelId = channelId
      · simp [List.filter_cons, hstop, hid]
        omega
      · simp [List.filter_cons, hstop, hid]
    · rw [if_neg hstop]
      by_cases hdone : ch.done
      · rw [if_pos hdone]
        simp [List.filter_cons, hstop]
      · rw [if_neg hdone]
        simp [List.filter_cons, hstop, updateCommand]

theorem filter_id_length_one (L : List WebAudioChannel) (channelId : ℤ)
    (hn : (L.map (fun c => c.channelId)).Nodup)
    (hm : channelId ∈ L.map (fun c => c.channelId)) :
    (L.filter (fun c => decide (c.channelId = channelId))).length = 1 := by
  induction L with
  | nil => simp at hm
  | cons ch rest ih =>
    rw [List.map_cons, List.nodup_cons] at hn
    obtain ⟨hn1, hn2⟩ := hn
    rw [List.map_cons, List.mem_cons] at hm
    by_cases hid : ch.channelId = channelId
    · rw [List.filter_cons_of_pos (by simp [hid]), List.length_cons]
      have hz : (rest.filter (fun c => decide (c.channelId = channelId))).length = 0 := by
        rw [List.length_eq_zero, List.filter_eq_nil_iff]
        intro c hc
        simp only [decide_eq_true_iff]
        intro he
        apply hn1
        rw [List.mem_map]
        exact ⟨c, hc, by rw [he, hid]⟩
      omega
    · rw [List.filter_cons_of_neg (by simp [hid])]
      apply ih hn2
      rcases hm with hm | hm
      · exact absurd hm.symm hid
      · exact hm

theorem stopById_stopping_filter_length (L : List WebAudioChannel) (channelId : ℤ) :
    ((L.map (fun c => if c.channelId = channelId then StopChannel c else c)).filter
      (fun c => c.stopping = true ∧ c.channelId = channelId)).length =
    (L.filter (fun c => decide (c.channelId = channelId))).length := by
  induction L with
  | nil => rfl
  | cons ch rest ih =>
    rw [List.map_cons]
    by_cases hid : ch.channelId = channelId
    · rw [if_pos hid,
        List.filter_cons_of_pos (by simp [StopChannel, hid]),
        List.filter_cons_of_pos (by simp [hid]),
        List.length_cons, List.length_cons, ih]
    · rw [if_neg hid,
        List.filter_cons_of_neg (by simp [hid]),
        List.filter_cons_of_neg (by simp [hid]), ih]

theorem stopById_mem_id (st : WebAudioMixer) (channelId : ℤ)
    (c : WebAudioChannel) (hc : c ∈ (stopChannelById channelId st).channels)
    (hcid : c.channelId = channelId) : c.stopping = true := by
  unfold stopChannelById at hc
  dsimp only at hc
  rw [List.mem_map] at hc
  obtain ⟨c', hc', he⟩ := hc
  by_cases hx : c'.channelId = channelId
  · rw [if_pos hx] at he
    rw [← he]
    rfl
  · rw [if_neg hx] at he
    subst he
    exact absurd hcid hx

theorem stopById_mem_stop (st : WebAudioMixer) (channelId : ℤ)
    (hm : channelId ∈ liveIds st) :
    channelId ∈ stoppedIds (stopChannelById channelId st).channels := by
  obtain ⟨c, hc, hcid⟩ := (mem_liveIds_iff st channelId).mp hm
  unfold stoppedIds stopChannelById
  dsimp only
  rw [List.mem_map]
  refine ⟨StopChannel c, ?_, hcid⟩
  rw [List.mem_filter]
  constructor
  · rw [List.mem_map]
    exact ⟨c, hc, by rw [if_pos hcid]⟩
  · rfl

/-- C3: teardown is idempotent and exactly-once. Stopping a live channel once
or twice is the same state change; the next `Tick` then issues exactly one
backend stop command for its id and removes it from the live list and the
registry, and a further `Tick` issues no stop for that id; delivering
`OnChannelEnded` for an id absent from the registry (unknown, or already
removed — in particular a second delivery of the same id) changes nothing and
raises no error. -/
theorem teardown_idempotent (curve : ℤ → ℚ) (cfg : MixerConfig)
    (st : WebAudioMixer) (channelId : ℤ) (h : goodState st)
    (hlive : channelId ∈ liveIds st) :
    stopChannelById channelId (stopChannelById channelId st) =
      stopChannelById channelId st ∧
    stopCount channelId (Tick curve cfg (stopChannelById channelId st)).2.2 = 1 ∧
    channelId ∉ liveIds (Tick curve cfg (stopChannelById channelId st)).1 ∧
    channelId ∉ (Tick curve cfg (stopChannelById channelId st)).1.channelMap ∧
    stopCount channelId
      (Tick curve cfg (Tick curve cfg (stopChannelById channelId st)).1).2.2 = 0 ∧
    (∀ (st' : WebAudioMixer) (j : ℤ), j ∉ st'.channelMap →
      OnChannelEnded st' j = (st', none)) ∧
    (∀ st' : WebAudioMixer,
      (OnChannelEnded (OnChannelEnded st' channelId).1 channelId).1 =
        (OnChannelEnded st' channelId).1) := by
  obtain ⟨hn1, hn2, hmm, hcm, hnext, hlt⟩ := h
  refine ⟨?_, ?_, ?_, ?_, ?_, ?_, ?_⟩
  · unfold stopChannelById
    dsimp only
    have hmap2 : (st.channels.map
        (fun c => if c.channelId = channelId then StopChannel c else c)).map
          (fun c => if c.channelId = channelId then StopChannel c else c) =
        st.channels.map (fun c => if c.channelId = channelId then StopChannel c else c) := by
      rw [List.map_map]
      apply List.map_congr_left
      intro c _
      by_cases hx : c.channelId = channelId
      · rw [Function.comp_apply, if_pos hx]
        have hsx : (StopChannel c).channelId = channelId := hx
        rw [if_pos hsx]
        rfl
      · rw [Function.comp_apply, if_neg hx, if_neg hx]
    exact congrArg (fun x => { st with channels := x }) hmap2
  · rw [Tick_eq]
    dsimp only
    rw [stopCount_flatMap]
    unfold stopChannelById
    dsimp only
    rw [stopById_stopping_filter_length]
    exact filter_id_length_one st.channels channelId hn1 hlive
  · rw [Tick_eq]
    dsimp only
    intro hmem
    obtain ⟨c, hc, hcid⟩ := (mem_liveIds_iff _ channelId).mp hmem
    rw [List.mem_filter] at hc
    obtain ⟨hc1, hc2⟩ := hc
    rw [decide_eq_true_iff] at hc2
    have := stopById_mem_id st channelId c hc1 hcid
    rw [hc2] at this
    cases this
  · rw [Tick_eq]
    dsimp only
    intro hmem
    rw [List.mem_filter] at hmem
    obtain ⟨_, hdec⟩ := hmem
    rw [decide_eq_true_iff] at hdec
    exact hdec (stopById_mem_stop st channelId hlive)
  · rw [Tick_eq curve cfg ((Tick curve cfg (stopChannelById channelId st)).1)]
    dsimp only
    rw [stopCount_flatMap, List.length_eq_zero, List.filter_eq_nil_iff]
    intro c hc
    rw [Tick_eq] at hc
    dsimp only at hc
    rw [List.mem_filter] at hc
    obtain ⟨_, hc2⟩ := hc
    rw [decide_eq_true_iff] at hc2
    simp only [decide_eq_true_iff, not_and]
    intro hcs
    rw [hc2] at hcs
    cases hcs
  · intro st' j hj
    exact OnChannelEnded_not_found st' j (FindChannel_none_of_not_mem st' j hj)
  · intro st'
    rcases hf : FindChannel st' channelId with _ | ch
    · rw [OnChannelEnded_not_found st' channelId hf]
      dsimp only
      rw [OnChannelEnded_not_found st' channelId hf]
    · rw [OnChannelEnded_found st' channelId ch hf]
      dsimp only
      have hnm : channelId ∉
          (RemoveChannel channelId st'.channelMap : List ℤ) := by
        intro hmem
        unfold RemoveChannel at hmem
        rw [List.mem_filter] at hmem
        obtain ⟨_, hd⟩ := hmem
        rw [decide_eq_true_iff] at hd
        exact hd rfl
      rw [OnChannelEnded_not_found _ channelId
        (FindChannel_none_of_not_mem _ channelId hnm)]

/-- Witness for C3 on a mixer holding one live channel with id 1. -/
theorem teardown_idempotent_witness :
    goodState stOneLive ∧ (1 : ℤ) ∈ liveIds stOneLive ∧
    stopCount 1 (Tick curve0 cfg0 (stopChannelById 1 stOneLive)).2.2 = 1 :=
  ⟨by decide, by decide,
    (teardown_idempotent curve0 cfg0 stOneLive 1 (by decide) (by decide)).2.1⟩

/-! ## C7: done channels are silent and finalised at most once -/

theorem removalBound_le_one (st : WebAudioMixer) (id : ℤ) :
    removalBound st id ≤ 1 := by
  unfold removalBound
  split_ifs <;> omega

theorem removalBound_mono (st' st : WebAudioMixer) (id : ℤ)
    (hsub : id ∈ liveIds st' → id ∈ liveIds st)
    (hnx : st'.nextChannelId = st.nextChannelId) :
    removalBound st' id ≤ removalBound st id := by
  unfold removalBound
  rw [hnx]
  by_cases h1 : id ∈ liveIds st'
  · rw [if_pos h1, if_pos (hsub h1)]
  · rw [if_neg h1]
    by_cases h2 : id ∈ liveIds st
    · rw [if_pos h2]
      split_ifs <;> omega
    · rw [if_neg h2]

theorem removalBound_uas (curve : ℤ → ℚ) (cfg : MixerConfig)
    (st : WebAudioMixer) (id : ℤ) :
    removalBound (UpdateAdjustedSound curve cfg st) id = removalBound st id := by
  unfold removalBound liveIds
  rw [uas_channels, uas_nextChannelId]

theorem map_done_filter_length (L : List WebAudioChannel) (id : ℤ) :
    (((L.filter (fun c => c.stopping)).map
        (fun c => { c with done := true })).filter
      (fun c => decide (c.channelId = id))).length =
    (L.filter (fun c => c.stopping = true ∧ c.channelId = id)).length := by
  induction L with
  | nil => rfl
  | cons ch rest ih =>
    by_cases hstop : ch.stopping
    · rw [List.filter_cons_of_pos (by simp [hstop]), List.map_cons]
      by_cases hid : ch.channelId = id
      · rw [List.filter_cons_of_pos (by simp [hid]),
          List.filter_cons_of_pos (by simp [hstop, hid]),
          List.length_cons, List.length_cons, ih]
      · rw [List.filter_cons_of_neg (by simp [hid]),
          List.filter_cons_of_neg (by simp [hid]), ih]
    · rw [List.filter_cons_of_neg (by simp [hstop]),
        List.filter_cons_of_neg (by simp [hstop]), ih]

theorem stopping_id_filter_le (L : List WebAudioChannel) (id : ℤ)
    (hn : (L.map (fun c => c.channelId)).Nodup)
    (hm : id ∈ L.map (fun c => c.channelId)) :
    (L.filter (fun c => c.stopping = true ∧ c.channelId = id)).length ≤ 1 := by
  have hcomm : L.filter (fun c => c.stopping = true ∧ c.channelId = id) =
      (L.filter (fun c => decide (c.channelId = id))).filter
        (fun c => c.stopping) := by
    rw [List.filter_filter]
    apply List.filter_congr
    intro c _
    rcases hc : c.stopping <;> by_cases hi : c.channelId = id <;> simp [hc, hi]
  rw [hcomm]
  have h1 := List.length_filter_le (fun c : WebAudioChannel => c.stopping)
    (L.filter (fun c => decide (c.channelId = id)))
  have h2 := filter_id_length_one L id hn hm
  omega

theorem stopping_id_filter_zero (L : List WebAudioChannel) (id : ℤ)
    (hm : id ∉ L.map (fun c => c.channelId)) :
    (L.filter (fun c => c.stopping = true ∧ c.channelId = id)).length = 0 := by
  rw [List.length_eq_zero, List.filter_eq_nil_iff]
  intro c hc
  simp only [decide_eq_true_iff, not_and]
  intro _ hcid
  exact hm (List.mem_map.mpr ⟨c, hc, hcid⟩)

theorem tick_removed_le (curve : ℤ → ℚ) (cfg : MixerConfig)
    (st : WebAudioMixer) (id : ℤ) (h : goodState st) :
    ((Tick curve cfg st).2.1.filter (fun c => decide (c.channelId = id))).length +
      removalBound (Tick curve cfg st).1 id ≤ removalBound st id := by
  obtain ⟨hn1, hn2, hmm, hcm, hnext, hlt⟩ := h
  have hnx : (Tick curve cfg st).1.nextChannelId = st.nextChannelId := by
    rw [Tick_eq]
    dsimp only
    rw [uas_nextChannelId]
  have hsub : id ∈ liveIds (Tick curve cfg st).1 → id ∈ liveIds st := by
    intro hmem
    rw [Tick_eq] at hmem
    obtain ⟨c, hc, hcid⟩ := (mem_liveIds_iff _ id).mp hmem
    rw [List.mem_filter] at hc
    exact (mem_liveIds_iff st id).mpr ⟨c, hc.1, hcid⟩
  have hrm : (Tick curve cfg st).2.1 =
      (st.channels.filter (fun c => c.stopping)).map
        (fun c => { c with done := true }) := by
    rw [Tick_eq]
  rw [hrm, map_done_filter_length]
  by_cases hm : id ∈ liveIds st
  · by_cases hA : (st.channels.filter
        (fun c => c.stopping = true ∧ c.channelId = id)).length = 0
    · rw [hA]
      simp only [Nat.zero_add]
      exact removalBound_mono _ _ id hsub hnx
    · have hex : ∃ c, c ∈ st.channels ∧ c.stopping = true ∧ c.channelId = id := by
        rcases hne : st.channels.filter
            (fun c => c.stopping = true ∧ c.channelId = id) with _ | ⟨c, rest2⟩
        · rw [hne] at hA
          simp at hA
        · have hcmem : c ∈ st.channels.filter
              (fun c => c.stopping = true ∧ c.channelId = id) := by
            rw [hne]
            exact List.mem_cons_self c rest2
          rw [List.mem_filter] at hcmem
          refine ⟨c, hcmem.1, ?_⟩
          have := hcmem.2
          rw [decide_eq_true_iff] at this
          exact this
      obtain ⟨c, hc, hcs, hcid⟩ := hex
      have hA1 := stopping_id_filter_le st.channels id hn1 hm
      have hnotlive : id ∉ liveIds (Tick curve cfg st).1 := by
        rw [Tick_eq]
        intro hmem
        obtain ⟨c', hc', hcid'⟩ := (mem_liveIds_iff _ id).mp hmem
        rw [List.mem_filter] at hc'
        obtain ⟨hc'1, hc'2⟩ := hc'
        rw [decide_eq_true_iff] at hc'2
        have hee : c' = c :=
          List.inj_on_of_nodup_map hn1 hc'1 hc (by rw [hcid', hcid])
        rw [hee, hcs] at hc'2
        cases hc'2
      have hidlt : id < st.nextChannelId := by
        have := (hlt c hc).2.1
        rw [hcid] at this
        exact this
      have hbound0 : removalBound (Tick curve cfg st).1 id = 0 := by
        unfold removalBound
        rw [if_neg hnotlive, if_pos (by rw [hnx]; exact hidlt)]
      have hbound1 : removalBound st id = 1 := by
        unfold removalBound
        rw [if_pos hm]
      rw [hbound0, hbound1]
      omega
  · rw [stopping_id_filter_zero st.channels id hm]
    simp only [Nat.zero_add]
    exact removalBound_mono _ _ id hsub hnx

theorem ended_removed_le (st : WebAudioMixer) (j id : ℤ) (h : goodState st) :
    (((OnChannelEnded st j).2.toList).filter
        (fun c => decide (c.channelId = id))).length +
      removalBound (OnChannelEnded st j).1 id ≤ removalBound st id := by
  obtain ⟨hn1, hn2, hmm, hcm, hnext, hlt⟩ := h
  rcases hf : FindChannel st j with _ | ch
  · rw [OnChannelEnded_not_found st j hf]
    simp only [Option.toList, List.filter_nil, List.length_nil, Nat.zero_add]
    exact le_refl _
  · obtain ⟨hmem, hcid⟩ := FindChannel_some_facts st j ch hf
    rw [OnChannelEnded_found st j ch hf]
    dsimp only [Option.toList]
    by_cases hij : j = id
    · subst hij
      have hlen : (([({ ch with done := true } : WebAudioChannel)]).filter
          (fun c => decide (c.channelId = j))).length = 1 := by
        rw [List.filter_cons_of_pos (by simp [hcid])]
        rfl
      rw [hlen]
      have hnotlive : j ∉ liveIds
          ({ st with
              channels := st.channels.filter (fun c => decide (c.channelId ≠ j))
              channelMap := RemoveChannel j st.channelMap } : WebAudioMixer) := by
        intro hmem2
        obtain ⟨c, hc, hcid'⟩ := (mem_liveIds_iff _ j).mp hmem2
        have hc2 : c ∈ st.channels.filter (fun c => decide (c.channelId ≠ j)) := hc
        rw [List.mem_filter] at hc2
        obtain ⟨_, hd⟩ := hc2
        rw [decide_eq_true_iff] at hd
        exact hd hcid'
      have hjlt : j < st.nextChannelId := by
        have := (hlt ch hmem).2.1
        rw [hcid] at this
        exact this
      have hbound0 : removalBound
          ({ st with
              channels := st.channels.filter (fun c => decide (c.channelId ≠ j))
              channelMap := RemoveChannel j st.channelMap } : WebAudioMixer) j = 0 := by
        unfold removalBound
        rw [if_neg hnotlive, if_pos hjlt]
      have hbound1 : removalBound st j = 1 := by
        unfold removalBound
        rw [if_pos ((mem_liveIds_iff st j).mpr ⟨ch, hmem, hcid⟩)]
      rw [hbound0, hbound1]
    · have hlen : (([({ ch with done := true } : WebAudioChannel)]).filter
          (fun c => decide (c.channelId = id))).length = 0 := by
        rw [List.filter_cons_of_neg (by simp [hcid, hij])]
        rfl
      rw [hlen]
      simp only [Nat.zero_add]
      apply removalBound_mono
      · intro hmem2
        obtain ⟨c, hc, hcid'⟩ := (mem_liveIds_iff _ id).mp hmem2
        have hc2 : c ∈ st.channels.filter (fun c => decide (c.channelId ≠ j)) := hc
        rw [List.mem_filter] at hc2
        exact (mem_liveIds_iff st id).mpr ⟨c, hc2.1, hcid'⟩
      · rfl

theorem removalBound_insert (st : WebAudioMixer) (ch : WebAudioChannel)
    (id : ℤ) (hid : ch.channelId = st.nextChannelId) :
    removalBound
      ({ st with
          nextChannelId := st.nextChannelId + 1
          channels := st.channels ++ [ch]
          channelMap := RegisterChannel ch.channelId st.channelMap } :
        WebAudioMixer) id ≤ removalBound st id := by
  by_cases hm : id ∈ liveIds st
  · have h1 : removalBound st id = 1 := by
      unfold removalBound
      rw [if_pos hm]
    rw [h1]
    exact removalBound_le_one _ id
  · by_cases hl : id < st.nextChannelId
    · have h0 : removalBound st id = 0 := by
        unfold removalBound
        rw [if_neg hm, if_pos hl]
      have hnot : id ∉ liveIds
          ({ st with
              nextChannelId := st.nextChannelId + 1
              channels := st.channels ++ [ch]
              channelMap := RegisterChannel ch.channelId st.channelMap } :
            WebAudioMixer) := by
        intro hmem
        obtain ⟨c, hc, hcid⟩ := (mem_liveIds_iff _ id).mp hmem
        have hc' : c ∈ st.channels ++ [ch] := hc
        rw [List.mem_append] at hc'
        rcases hc' with hc' | hc'
        · exact hm ((mem_liveIds_iff st id).mpr ⟨c, hc', hcid⟩)
        · simp only [List.mem_singleton] at hc'
          subst hc'
          rw [hid] at hcid
          omega
      have h0' : removalBound
          ({ st with
              nextChannelId := st.nextChannelId + 1
              channels := st.channels ++ [ch]
              channelMap := RegisterChannel ch.channelId st.channelMap } :
            WebAudioMixer) id = 0 := by
        unfold removalBound
        rw [if_neg hnot, if_pos (show id < st.nextChannelId + 1 by omega)]
      rw [h0, h0']
    · have h1 : removalBound st id = 1 := by
        unfold removalBound
        rw [if_neg hm, if_neg hl]
      rw [h1]
      exact removalBound_le_one _ id

theorem play_bound_le (curve : ℤ → ℚ) (cfg : MixerConfig) (st : WebAudioMixer)
    (src : SourcePtr) (loop : ℤ) (deleteondone : Bool) (id : ℤ) :
    removalBound (Play curve cfg st src loop deleteondone).2.1 id ≤
      removalBound st id := by
  rcases src with _ | _ | sx
  · exact le_refl _
  · exact le_refl _
  · unfold Play
    rcases hpc : playConverted sx with _ | ⟨format, data⟩
    · simp only [hpc]
      exact le_refl _
    · simp only [hpc]
      by_cases hch : format.channels ≤ 0
      · rw [if_pos hch]
      · rw [if_neg hch]
        by_cases hfr :
            ((ConvertToFloat format.format data).length : ℤ) / format.channels ≤ 0
        · rw [if_pos hfr]
        · rw [if_neg hfr]
          dsimp only
          rw [removalBound_uas]
          exact removalBound_insert st _ id rfl

theorem removedCount_cons (curve : ℤ → ℚ) (cfg : MixerConfig) (id : ℤ)
    (st : WebAudioMixer) (op : MixerOp) (rest : List MixerOp) :
    removedCount curve cfg id st (op :: rest) =
      ((step curve cfg st op).removed.filter
          (fun c => decide (c.channelId = id))).length +
        removedCount curve cfg id (step curve cfg st op).state rest := rfl

theorem step_removed_le (curve : ℤ → ℚ) (cfg : MixerConfig) (st : WebAudioMixer)
    (op : MixerOp) (id : ℤ) (h : goodState st) :
    ((step curve cfg st op).removed.filter
        (fun c => decide (c.channelId = id))).length +
      removalBound (step curve cfg st op).state id ≤ removalBound st id := by
  cases op with
  | play src loop deleteondone =>
    have hr : (step curve cfg st (MixerOp.play src loop deleteondone)).removed = [] := rfl
    rw [hr]
    simp only [List.filter_nil, List.length_nil, Nat.zero_add]
    exact play_bound_le curve cfg st src loop deleteondone id
  | tick => exact tick_removed_le curve cfg st id h
  | ended j => exact ended_removed_le st j id h
  | close =>
    have hr : (step curve cfg st MixerOp.close).removed = [] := rfl
    rw [hr]
    simp only [List.filter_nil, List.length_nil, Nat.zero_add]
    apply removalBound_mono
    · intro hmem
      obtain ⟨c, hc, _⟩ := (mem_liveIds_iff _ id).mp hmem
      have hc' : c ∈ ([] : List WebAudioChannel) := hc
      cases hc'
    · rfl
  | setVolume v =>
    exact tick_removed_le curve cfg { st with volume := v } id
      (goodState_volume st v h)
  | stopChannel j =>
    have hr : (step curve cfg st (MixerOp.stopChannel j)).removed = [] := rfl
    rw [hr]
    simp only [List.filter_nil, List.length_nil, Nat.zero_add]
    apply removalBound_mono
    · intro hmem
      have hmem' : id ∈ liveIds (stopChannelById j st) := hmem
      rwa [liveIds_stopChannelById] at hmem'
    · rfl
  | addSource sx =>
    have hr : (step curve cfg st (MixerOp.addSource sx)).removed = [] := rfl
    rw [hr]
    simp only [List.filter_nil, List.length_nil, Nat.zero_add]
    exact le_refl _

theorem removedCount_le_bound (curve : ℤ → ℚ) (cfg : MixerConfig) (id : ℤ)
    (ops : List MixerOp) :
    ∀ st : WebAudioMixer, goodState st →
      removedCount curve cfg id st ops ≤ removalBound st id := by
  induction ops with
  | nil =>
    intro st _
    exact Nat.zero_le _
  | cons op rest ih =>
    intro st h
    rw [removedCount_cons]
    have h1 := step_removed_le curve cfg st op id h
    have h2 := ih (step curve cfg st op).state (goodState_step curve cfg st op h)
    omega

/-- C7: once a channel's done flag is set, no further backend parameter
update is ever sent for it: `UpdateChannel` and every setter routed through
it (`SetRate`, `SetVolume`, `SetPan`, `SetGroup`, and the tick-driven update,
which factors through `UpdateChannel`) emit no command on a done channel; and
over any operation sequence from a consistent state, any given channel id is
finalised (marked done and removed) at most once. -/
theorem done_channel_silent (curve : ℤ → ℚ) (cfg : MixerConfig)
    (st : WebAudioMixer) (ch : WebAudioChannel) (restart : Bool) (r : ℚ)
    (v : ℤ) (p : ℚ) (g : MixerGroup) (channelId : ℤ) (ops : List MixerOp)
    (hdone : ch.done = true) (hst : goodState st) :
    UpdateChannel curve cfg st ch restart = (st, []) ∧
    (SetRate curve cfg st ch r).2.2 = [] ∧
    (SetChannelVolume curve cfg st ch v).2.2 = [] ∧
    (SetPan curve cfg st ch p).2.2 = [] ∧
    (SetGroup curve cfg st ch g).2.2 = [] ∧
    removedCount curve cfg channelId st ops ≤ 1 := by
  refine ⟨uc_done_eq curve cfg st ch restart hdone, ?_, ?_, ?_, ?_, ?_⟩
  · show (UpdateChannel curve cfg st { ch with rate := max (1 / 1000) r } false).2 = []
    rw [uc_done_eq curve cfg st { ch with rate := max (1 / 1000) r } false hdone]
  · show (UpdateChannel curve cfg st
      { ch with volume := max 0 (min v kMixerVolumeMax) } false).2 = []
    rw [uc_done_eq curve cfg st
      { ch with volume := max 0 (min v kMixerVolumeMax) } false hdone]
  · show (UpdateChannel curve cfg st { ch with pan := panClamp p } false).2 = []
    rw [uc_done_eq curve cfg st { ch with pan := panClamp p } false hdone]
  · show (UpdateChannel curve cfg st { ch with group := g } false).2 = []
    rw [uc_done_eq curve cfg st { ch with group := g } false hdone]
  · exact (removedCount_le_bound curve cfg channelId ops st hst).trans
      (removalBound_le_one st channelId)

/-- Witness for C7 on the freshly constructed channel (whose done flag is
set) and a one-tick trace. -/
theorem done_channel_silent_witness :
    UpdateChannel curve0 cfg0 initMixer (freshChannel 1) false = (initMixer, []) ∧
    removedCount curve0 cfg0 5 initMixer [MixerOp.tick] ≤ 1 :=
  ⟨(done_channel_silent curve0 cfg0 initMixer (freshChannel 1) false 1 1 (1 / 2)
      MixerGroup.Sound 5 [MixerOp.tick] rfl goodState_initMixer).1,
    (done_channel_silent curve0 cfg0 initMixer (freshChannel 1) false 1 1 (1 / 2)
      MixerGroup.Sound 5 [MixerOp.tick] rfl goodState_initMixer).2.2.2.2.2⟩

end WebAudio
